import Mathlib

/-!
Shallow embedding of the `mock-aws-nodejs` in-memory S3 emulation
(`src/s3/handlers.ts` store + handlers, `src/s3/S3MockStore.ts`,
`src/core/types.ts`) and proofs about the behaviour its specification
claims.

Modelling conventions:
* JS strings are Lean `String`s; JS string comparison (`<`, `>`, and the
  `localeCompare`-based sort comparator) is modelled as code-point
  lexicographic order on `String.data` (`lexLt`/`lexLe` below).
* `Buffer`s are `List Nat` byte sequences.
* `Date` timestamps are `Nat`s; operations that call `new Date()` take an
  explicit `now` argument.
* The MD5 hex digest supplied by node's `crypto` library (external to this
  repository) is an explicit function argument `md5Hex : List Nat → String`
  of every operation that computes an ETag.
* JS `Map`s are insertion-ordered association lists (`mapGet`/`mapSet`/
  `mapDel` below, mirroring `Map.get`/`Map.set`/`Map.delete`).
* A store method that mutates and may `throw` is modelled as
  `S3State → (Except MockErr α) × S3State`, returning the state at the
  point of the throw, so that absence of partial mutation is a provable
  property rather than an artefact of the encoding.
-/

namespace MockAws

/-! ### JS string order -/

/-- Strict code-point lexicographic order on character lists: the model of
the JS string `<`/`>` comparison (and of the `localeCompare` sort
comparator, which agrees with it on the code-point level for the plain
ASCII keys the emulation is exercised with). -/
def lexLt : List Char → List Char → Bool
  | [], [] => false
  | [], _ :: _ => true
  | _ :: _, [] => false
  | a :: as, b :: bs => if a = b then lexLt as bs else decide (a < b)

/-- Non-strict variant: `a <= b` in JS is `!(b < a)`. -/
def lexLe (a b : List Char) : Bool := !lexLt b a

theorem lexLt_irrefl (a : List Char) : lexLt a a = false := by
  induction a with
  | nil => rfl
  | cons c cs ih => simp [lexLt, ih]

theorem lexLt_trans {a b c : List Char} (hab : lexLt a b = true)
    (hbc : lexLt b c = true) : lexLt a c = true := by
  induction a generalizing b c with
  | nil =>
    cases b with
    | nil => simp [lexLt] at hab
    | cons y ys =>
      cases c with
      | nil => simp [lexLt] at hbc
      | cons z zs => simp [lexLt]
  | cons x xs ih =>
    cases b with
    | nil => simp [lexLt] at hab
    | cons y ys =>
      cases c with
      | nil => simp [lexLt] at hbc
      | cons z zs =>
        simp only [lexLt] at hab hbc ⊢
        by_cases hxy : x = y
        · subst hxy
          simp only [if_pos rfl] at hab
          by_cases hyz : x = z
          · subst hyz
            simp only [if_pos rfl] at hbc ⊢
            exact ih hab hbc
          · simp only [if_neg hyz] at hbc ⊢
            exact hbc
        · simp only [if_neg hxy, decide_eq_true_eq] at hab
          by_cases hyz : y = z
          · subst hyz
            simp only [if_neg hxy, decide_eq_true_eq]
            exact hab
          · simp only [if_neg hyz, decide_eq_true_eq] at hbc
            have hxz : x < z := lt_trans hab hbc
            have : x ≠ z := ne_of_lt hxz
            simp [if_neg this, hxz]

theorem lexLt_asymm {a b : List Char} (h : lexLt a b = true) :
    lexLt b a = false := by
  induction a generalizing b with
  | nil =>
    cases b with
    | nil => simp [lexLt] at h
    | cons y ys => simp [lexLt]
  | cons x xs ih =>
    cases b with
    | nil => simp [lexLt] at h
    | cons y ys =>
      simp only [lexLt] at h ⊢
      by_cases hxy : x = y
      · subst hxy
        simp only [if_pos rfl] at h ⊢
        exact ih h
      · simp only [if_neg hxy, decide_eq_true_eq] at h
        have hne : y ≠ x := fun hyx => hxy hyx.symm
        simp [if_neg hne, not_lt.mpr (le_of_lt h)]

theorem lexLt_total (a b : List Char) :
    lexLt a b = true ∨ lexLt b a = true ∨ a = b := by
  induction a generalizing b with
  | nil =>
    cases b with
    | nil => right; right; rfl
    | cons y ys => left; simp [lexLt]
  | cons x xs ih =>
    cases b with
    | nil => right; left; simp [lexLt]
    | cons y ys =>
      by_cases hxy : x = y
      · subst hxy
        rcases ih ys with h | h | h
        · left; simp [lexLt, h]
        · right; left; simp [lexLt, h]
        · right; right; rw [h]
      · rcases lt_trichotomy x y with h | h | h
        · left; simp [lexLt, if_neg hxy, h]
        · exact absurd h hxy
        · right; left
          have hne : y ≠ x := fun hyx => hxy hyx.symm
          simp [lexLt, if_neg hne, h]

theorem lexLe_refl (a : List Char) : lexLe a a = true := by
  simp [lexLe, lexLt_irrefl]

theorem lexLe_total (a b : List Char) : lexLe a b = true ∨ lexLe b a = true := by
  rcases lexLt_total a b with h | h | h
  · left; simp [lexLe, lexLt_asymm h]
  · right; simp [lexLe, lexLt_asymm h]
  · subst h; left; exact lexLe_refl a

theorem lexLe_trans {a b c : List Char} (hab : lexLe a b = true)
    (hbc : lexLe b c = true) : lexLe a c = true := by
  simp only [lexLe, Bool.not_eq_true'] at hab hbc ⊢
  by_contra hca
  have hca' : lexLt c a = true := by
    cases h : lexLt c a with
    | false => exact absurd h hca
    | true => rfl
  rcases lexLt_total a b with h | h | h
  · have := lexLt_trans hca' h
    rw [this] at hbc
    exact Bool.true_eq_false ▸ hbc
  · rw [h] at hab
    exact Bool.true_eq_false ▸ hab
  · subst h
    rw [hca'] at hbc
    exact Bool.true_eq_false ▸ hbc

theorem lexLt_of_lexLe_ne {a b : List Char} (h : lexLe a b = true)
    (hne : a ≠ b) : lexLt a b = true := by
  simp only [lexLe, Bool.not_eq_true'] at h
  rcases lexLt_total a b with h' | h' | h'
  · exact h'
  · rw [h'] at h; exact absurd h (by simp)
  · exact absurd h' hne

theorem lexLe_of_lexLt {a b : List Char} (h : lexLt a b = true) :
    lexLe a b = true := by
  simp [lexLe, lexLt_asymm h]

theorem not_lexLt_of_lexLe {a b : List Char} (h : lexLe a b = true) :
    lexLt b a = false := by
  simpa [lexLe] using h

/-! ### JS `Array.prototype.findIndex` -/

/-- Model of JS `findIndex`: index of the first element satisfying `p`,
`none` when JS would return `-1`. -/
def jsFindIndex (p : α → Bool) : List α → Option Nat
  | [] => none
  | x :: xs => if p x then some 0 else (jsFindIndex p xs).map (· + 1)

theorem jsFindIndex_eq_none {p : α → Bool} {l : List α} :
    jsFindIndex p l = none ↔ ∀ x ∈ l, p x = false := by
  induction l with
  | nil => simp [jsFindIndex]
  | cons x xs ih =>
    by_cases h : p x
    · simp [jsFindIndex, h]
    · simp only [jsFindIndex, if_neg h, Option.map_eq_none', ih,
        List.mem_cons]
      constructor
      · rintro hall y (rfl | hy)
        · exact Bool.eq_false_iff.mpr h
        · exact hall y hy
      · intro hall y hy
        exact hall y (Or.inr hy)

theorem jsFindIndex_append_first {p : α → Bool} {A : List α} {x : α}
    {B : List α} (hA : ∀ y ∈ A, p y = false) (hx : p x = true) :
    jsFindIndex p (A ++ x :: B) = some A.length := by
  induction A with
  | nil => simp [jsFindIndex, hx]
  | cons a as ih =>
    have ha : p a = false := hA a (List.mem_cons_self a as)
    have ih' := ih (fun y hy => hA y (List.mem_cons_of_mem a hy))
    simp [jsFindIndex, ha, ih']

/-! ### JS `Map` as an insertion-ordered association list -/

/-- `Map.get`. -/
def mapGet [DecidableEq κ] : List (κ × β) → κ → Option β
  | [], _ => none
  | e :: es, k => if e.1 = k then some e.2 else mapGet es k

/-- `Map.has`. -/
def mapHas [DecidableEq κ] (m : List (κ × β)) (k : κ) : Bool :=
  (mapGet m k).isSome

/-- `Map.set`: replaces the entry in place when the key is present,
appends otherwise. -/
def mapSet [DecidableEq κ] : List (κ × β) → κ → β → List (κ × β)
  | [], k, v => [(k, v)]
  | e :: es, k, v => if e.1 = k then (k, v) :: es else e :: mapSet es k v

/-- `Map.delete` (the deleted-or-not result is recovered via `mapHas`). -/
def mapDel [DecidableEq κ] : List (κ × β) → κ → List (κ × β)
  | [], _ => []
  | e :: es, k => if e.1 = k then es else e :: mapDel es k

/-- `Map.values()` in insertion order. -/
def mapValues (m : List (κ × β)) : List β := m.map (·.2)

/-- Keys in insertion order. -/
def mapKeys (m : List (κ × β)) : List κ := m.map (·.1)

theorem mapGet_mapSet [DecidableEq κ] (m : List (κ × β)) (k : κ) (v : β)
    (n : κ) : mapGet (mapSet m k v) n = if n = k then some v else mapGet m n := by
  induction m with
  | nil =>
    by_cases h : n = k
    · simp [mapSet, mapGet, h]
    · have h2 : ¬k = n := fun hk => h hk.symm
      simp [mapSet, mapGet, h, h2]
  | cons e es ih =>
    by_cases hek : e.1 = k
    · subst hek
      by_cases hnk : n = e.1
      · simp [mapSet, mapGet, hnk]
      · have h1 : e.1 ≠ n := fun h => hnk h.symm
        simp [mapSet, mapGet, hnk, h1]
    · simp only [mapSet, if_neg hek, mapGet]
      by_cases hen : e.1 = n
      · have hnk : n ≠ k := fun h => hek (hen.trans h)
        simp [hen, hnk]
      · simp [hen, ih]

theorem mapGet_eq_none_of_not_mem_keys [DecidableEq κ] {m : List (κ × β)}
    {k : κ} (h : k ∉ mapKeys m) : mapGet m k = none := by
  induction m with
  | nil => rfl
  | cons e es ih =>
    simp only [mapKeys, List.map_cons, List.mem_cons] at h
    push_neg at h
    have h1 : e.1 ≠ k := fun he => h.1 he.symm
    simp [mapGet, h1, ih (by simpa [mapKeys] using h.2)]

theorem mapGet_mapDel_of_nodup [DecidableEq κ] (m : List (κ × β)) (k : κ)
    (n : κ) (hnd : (mapKeys m).Nodup) :
    mapGet (mapDel m k) n = if n = k then none else mapGet m n := by
  induction m with
  | nil => by_cases h : n = k <;> simp [mapDel, mapGet, h]
  | cons e es ih =>
    simp only [mapKeys, List.map_cons, List.nodup_cons] at hnd
    obtain ⟨hnotmem, hnd'⟩ := hnd
    by_cases hek : e.1 = k
    · subst hek
      by_cases hnk : n = e.1
      · subst hnk
        simp only [mapDel, if_pos rfl, if_pos rfl]
        exact mapGet_eq_none_of_not_mem_keys (by simpa [mapKeys] using hnotmem)
      · have h1 : e.1 ≠ n := fun h => hnk h.symm
        simp [mapDel, mapGet, hnk, h1]
    · simp only [mapDel, if_neg hek, mapGet]
      by_cases hen : e.1 = n
      · have hnk : n ≠ k := fun h => hek (hen.trans h)
        simp [hen, hnk]
      · simp [hen, ih (by simpa [mapKeys] using hnd')]


/-! ### Error model (`src/core/types.ts`) -/

/-- The `$fault` tag of an AWS-shaped error. -/
inductive Fault
  | client
  | server
deriving DecidableEq

/-- The structured error shape produced by `createAwsError`: symbolic name,
human-readable message, HTTP-equivalent status code and fault class. -/
structure AwsErr where
  name : String
  message : String
  httpStatusCode : Nat
  fault : Fault
deriving DecidableEq

/-- An error raised inside the emulation: either a structured AWS error
(`createAwsError`) or a plain `new Error(message)` thrown by a Store
method. -/
inductive MockErr
  | aws (e : AwsErr)
  | raw (message : String)
deriving DecidableEq

/-- `createAwsError` from `src/core/types.ts` (the request-id and retry
metadata carry no claim-relevant information and are omitted). -/
def createAwsError (name message : String) (httpStatusCode : Nat)
    (fault : Fault := .client) : MockErr :=
  .aws { name, message, httpStatusCode, fault }

/-! ### Data model (`src/s3/handlers.ts`, store section) -/

/-- A user-metadata map / tag set entry. -/
abbrev KV := String × String

/-- `StoredObject` of the store in `src/s3/handlers.ts`. -/
structure StoredObject where
  key : String
  body : List Nat
  contentType : Option String := none
  contentEncoding : Option String := none
  contentLanguage : Option String := none
  contentDisposition : Option String := none
  cacheControl : Option String := none
  expires : Option Nat := none
  metadata : Option (List KV) := none
  etag : String
  lastModified : Nat
  contentLength : Nat
  storageClass : Option String := none
  serverSideEncryption : Option String := none
  sseKmsKeyId : Option String := none
  bucketKeyEnabled : Option Bool := none
  versionId : Option String := none
  acl : Option String := none
  checksumAlgorithm : Option String := none
  checksumCRC32 : Option String := none
  checksumCRC32C : Option String := none
  checksumSHA1 : Option String := none
  checksumSHA256 : Option String := none
  tags : Option (List KV) := none
deriving DecidableEq

/-- An access-control grant (shape used by `getDefaultBucketAcl`). -/
structure Grant where
  granteeType : String
  granteeId : Option String := none
  granteeUri : Option String := none
  permission : String
deriving DecidableEq

/-- An access-control document (`Owner` + `Grants`). -/
structure AclDoc where
  ownerId : String
  ownerDisplayName : String
  grants : List Grant
deriving DecidableEq

/-- `BucketConfiguration`. The contents of the rule sub-documents (CORS
rules, lifecycle rules, website routing, …) are never inspected by any
claim, so each is carried opaquely (as a string or list of strings); what
matters — and is modelled exactly — is which sub-fields are present. -/
structure BucketConfiguration where
  versioning : Option (Option String × Option String) := none
  cors : Option (List String) := none
  policy : Option String := none
  acl : Option AclDoc := none
  encryption : Option String := none
  lifecycle : Option (List String) := none
  website : Option String := none
  tags : Option (List KV) := none
  notification : Option String := none
  replication : Option String := none
  accelerate : Option String := none
  logging : Option String := none
  objectLock : Option String := none
  publicAccessBlock : Option String := none
  analytics : List KV := []
  inventory : List KV := []
  metrics : List KV := []
  requestPayment : Option String := none
deriving DecidableEq

/-- `StoredBucket` of the store in `src/s3/handlers.ts`. -/
structure StoredBucket where
  name : String
  creationDate : Nat
  region : Option String := none
  configuration : BucketConfiguration := {}
deriving DecidableEq

/-- `UploadedPart`. -/
structure UploadedPart where
  partNumber : Nat
  etag : String
  size : Nat
  data : List Nat
  lastModified : Nat
deriving DecidableEq

/-- `MultipartUpload`; `parts` is the `Map<number, UploadedPart>`. -/
structure MultipartUpload where
  uploadId : String
  bucket : String
  key : String
  initiated : Nat
  storageClass : Option String := none
  parts : List (Nat × UploadedPart) := []
  metadata : Option (List KV) := none
  contentType : Option String := none
  serverSideEncryption : Option String := none
  sseKmsKeyId : Option String := none
  acl : Option String := none
  tags : Option (List KV) := none
deriving DecidableEq

/-- A part reference in a `CompleteMultipartUpload` request
(`{ PartNumber, ETag }`). -/
structure PartRef where
  PartNumber : Nat
  ETag : String
deriving DecidableEq

/-- The private state of `S3MockStore`: the `buckets`, `objects` and
`multipartUploads` maps. -/
structure S3State where
  buckets : List (String × StoredBucket) := []
  objects : List (String × List (String × StoredObject)) := []
  multipartUploads : List (String × MultipartUpload) := []
deriving DecidableEq

/-- The state of a freshly constructed `S3MockStore`. -/
def initialState : S3State := {}

/-- The options bag accepted by `putObject`
(`Partial<Omit<StoredObject, 'key' | 'body' | 'etag' | 'lastModified' |
'contentLength'>>`); `none` is an absent (or `undefined`) field. -/
structure ObjectOptions where
  contentType : Option String := none
  contentEncoding : Option String := none
  contentLanguage : Option String := none
  contentDisposition : Option String := none
  cacheControl : Option String := none
  expires : Option Nat := none
  metadata : Option (List KV) := none
  storageClass : Option String := none
  serverSideEncryption : Option String := none
  sseKmsKeyId : Option String := none
  bucketKeyEnabled : Option Bool := none
  versionId : Option String := none
  acl : Option String := none
  checksumAlgorithm : Option String := none
  checksumCRC32 : Option String := none
  checksumCRC32C : Option String := none
  checksumSHA1 : Option String := none
  checksumSHA256 : Option String := none
  tags : Option (List KV) := none
deriving DecidableEq

/-! ### Sorting relations used by the store -/

/-- Primary (level-1) collation weight of an ASCII character under the
default (ICU root) collation: a letter is identified with its lowercase
form; any other character keeps its code point. -/
def asciiFold (c : Char) : Nat :=
  if 65 ≤ c.toNat ∧ c.toNat ≤ 90 then c.toNat + 32 else c.toNat

/-- Case-level (tertiary) collation weight: the root collation places a
lowercase letter before its uppercase form. -/
def caseWeight (c : Char) : Nat :=
  if 65 ≤ c.toNat ∧ c.toNat ≤ 90 then 1 else 0

/-- Strict lexicographic order on collation-weight lists. -/
def natLexLt : List Nat → List Nat → Bool
  | [], [] => false
  | [], _ :: _ => true
  | _ :: _, [] => false
  | a :: as, b :: bs =>
    if a < b then true else if b < a then false else natLexLt as bs

/-- `a.localeCompare(b) < 0` under the default locale (ICU root
collation), modelled for ASCII keys: the whole strings are compared at
the case-insensitive primary level first, and only when all primary
weights tie does the case level decide, with lowercase before uppercase.
This is exact for ASCII alphanumeric keys and is NOT code-point order:
`"a".localeCompare("B") < 0`, while `'B' < 'a'` by code point. -/
def localeLt (a b : List Char) : Bool :=
  let pa := a.map asciiFold
  let pb := b.map asciiFold
  if natLexLt pa pb then true
  else if natLexLt pb pa then false
  else natLexLt (a.map caseWeight) (b.map caseWeight)

/-- The `listObjects` sort comparator
`(a, b) => a.key.localeCompare(b.key)`: a JS comparator sort produces a
list that pairwise satisfies `cmp(a, b) <= 0`, that is, `¬(b < a)` in
the collation order. -/
def keyLocaleLE (a b : StoredObject) : Prop :=
  localeLt b.key.data a.key.data = false

instance : DecidableRel keyLocaleLE := fun a b =>
  inferInstanceAs (Decidable (localeLt b.key.data a.key.data = false))

/-- The default JS string sort used on common prefixes
(`Array.from(commonPrefixes).sort()`). -/
def strLE (a b : String) : Prop := lexLe a.data b.data = true

instance : DecidableRel strLE := fun a b =>
  inferInstanceAs (Decidable (lexLe a.data b.data = true))

instance : IsTotal String strLE := ⟨fun a b => lexLe_total a.data b.data⟩

instance : IsTrans String strLE := ⟨fun _ _ _ hab hbc => lexLe_trans hab hbc⟩

namespace S3MockStore

/-- `getDefaultBucketAcl` (the `switch` over canned bucket ACLs). -/
def getDefaultBucketAcl (cannedAcl : String) : AclDoc :=
  let ownerId := "default-owner-id"
  let ownerDisplayName := "default-owner"
  let fullControl : Grant :=
    { granteeType := "CanonicalUser", granteeId := some ownerId,
      permission := "FULL_CONTROL" }
  if cannedAcl = "private" then
    { ownerId, ownerDisplayName, grants := [fullControl] }
  else if cannedAcl = "public-read" then
    { ownerId, ownerDisplayName, grants := [fullControl,
        { granteeType := "Group",
          granteeUri := some "http://acs.amazonaws.com/groups/global/AllUsers",
          permission := "READ" }] }
  else if cannedAcl = "public-read-write" then
    { ownerId, ownerDisplayName, grants := [fullControl,
        { granteeType := "Group",
          granteeUri := some "http://acs.amazonaws.com/groups/global/AllUsers",
          permission := "READ" },
        { granteeType := "Group",
          granteeUri := some "http://acs.amazonaws.com/groups/global/AllUsers",
          permission := "WRITE" }] }
  else if cannedAcl = "authenticated-read" then
    { ownerId, ownerDisplayName, grants := [fullControl,
        { granteeType := "Group",
          granteeUri :=
            some "http://acs.amazonaws.com/groups/global/AuthenticatedUsers",
          permission := "READ" }] }
  else
    { ownerId, ownerDisplayName, grants := [fullControl] }

/-- The `StoredBucket` record built by `createBucket`. -/
def mkStoredBucket (now : Nat) (name : String) (region acl : Option String) :
    StoredBucket :=
  { name, creationDate := now, region,
    configuration :=
      match acl with
      | some a => { acl := some (getDefaultBucketAcl a) }
      | none => {} }

/-- `createBucket`: fails when the bucket already exists, otherwise adds
the bucket record to `buckets` and an empty object map to `objects`. -/
def createBucket (now : Nat) (s : S3State) (name : String)
    (region : Option String) (acl : Option String) :
    (Except MockErr StoredBucket) × S3State :=
  if mapHas s.buckets name then
    (.error (.raw ("Bucket already exists: " ++ name)), s)
  else
    let bucket := mkStoredBucket now name region acl
    (.ok bucket,
      { s with buckets := mapSet s.buckets name bucket,
               objects := mapSet s.objects name [] })

/-- `getBucket`. -/
def getBucket (s : S3State) (name : String) : Option StoredBucket :=
  mapGet s.buckets name

/-- `bucketExists`. -/
def bucketExists (s : S3State) (name : String) : Bool :=
  mapHas s.buckets name

/-- `deleteBucket`: fails when the bucket still holds objects, otherwise
removes the bucket from both maps. -/
def deleteBucket (s : S3State) (name : String) :
    (Except MockErr Bool) × S3State :=
  let nonEmpty :=
    match mapGet s.objects name with
    | some objs => decide (objs.length > 0)
    | none => false
  if nonEmpty then
    (.error (.raw ("Bucket is not empty: " ++ name)), s)
  else
    (.ok (mapHas s.buckets name),
      { s with objects := mapDel s.objects name,
               buckets := mapDel s.buckets name })

/-- `listBuckets`. -/
def listBuckets (s : S3State) : List StoredBucket :=
  mapValues s.buckets

/-- `ensureBucket`: get-or-create. The payload of the unreachable
`none` branch models the source's non-null assertion
(`this.buckets.get(name)!`); callers only use the state component. -/
def ensureBucket (now : Nat) (s : S3State) (name : String) :
    (Except MockErr StoredBucket) × S3State :=
  if !(mapHas s.buckets name) then
    createBucket now s name none none
  else
    match mapGet s.buckets name with
    | some b => (.ok b, s)
    | none => (.error (.raw "ensureBucket: bucket record missing"), s)

/-- The `StoredObject` record built by `putObject`: quoted MD5 ETag,
fresh last-modified, derived content length, `STANDARD` storage-class
default (`options.storageClass || 'STANDARD'`), every other field from
the options bag. -/
def mkStoredObject (md5Hex : List Nat → String) (now : Nat) (key : String)
    (body : List Nat) (opts : ObjectOptions) : StoredObject :=
  { key, body, etag := "\"" ++ md5Hex body ++ "\"",
    lastModified := now, contentLength := body.length,
    contentType := opts.contentType,
    contentEncoding := opts.contentEncoding,
    contentLanguage := opts.contentLanguage,
    contentDisposition := opts.contentDisposition,
    cacheControl := opts.cacheControl,
    expires := opts.expires,
    metadata := opts.metadata,
    storageClass := some
      (match opts.storageClass with
       | some v => if v = "" then "STANDARD" else v
       | none => "STANDARD"),
    serverSideEncryption := opts.serverSideEncryption,
    sseKmsKeyId := opts.sseKmsKeyId,
    bucketKeyEnabled := opts.bucketKeyEnabled,
    versionId := opts.versionId,
    acl := opts.acl,
    checksumAlgorithm := opts.checksumAlgorithm,
    checksumCRC32 := opts.checksumCRC32,
    checksumCRC32C := opts.checksumCRC32C,
    checksumSHA1 := opts.checksumSHA1,
    checksumSHA256 := opts.checksumSHA256,
    tags := opts.tags }

/-- `putObject`: auto-creates the bucket, computes the quoted MD5 ETag and
replaces the object wholesale. The source's body normalisation
(`Buffer`/`string`/`Uint8Array` to `Buffer`) is the identity here because
bodies are already byte lists. -/
def putObject (md5Hex : List Nat → String) (now : Nat) (s : S3State)
    (bucket key : String) (body : List Nat) (opts : ObjectOptions) :
    (Except MockErr StoredObject) × S3State :=
  let s1 := (ensureBucket now s bucket).2
  match mapGet s1.objects bucket with
  | none => (.error (.raw ("Bucket does not exist: " ++ bucket)), s1)
  | some bucketObjects =>
    let object := mkStoredObject md5Hex now key body opts
    (.ok object,
      { s1 with objects :=
          mapSet s1.objects bucket (mapSet bucketObjects key object) })

/-- `getObject`. -/
def getObject (s : S3State) (bucket key : String) : Option StoredObject :=
  match mapGet s.objects bucket with
  | none => none
  | some bucketObjects => mapGet bucketObjects key

/-- `objectExists`. -/
def objectExists (s : S3State) (bucket key : String) : Bool :=
  match mapGet s.objects bucket with
  | none => false
  | some bucketObjects => mapHas bucketObjects key

/-- `deleteObject`: idempotent, reports whether something was removed. -/
def deleteObject (s : S3State) (bucket key : String) : Bool × S3State :=
  match mapGet s.objects bucket with
  | none => (false, s)
  | some bucketObjects =>
    (mapHas bucketObjects key,
      { s with objects := mapSet s.objects bucket (mapDel bucketObjects key) })

/-- Options of `listObjects` (`pfx` is the source's `prefix` field). -/
structure ListOptions where
  pfx : Option String := none
  delimiter : Option String := none
  startAfter : Option String := none
  maxKeys : Option Nat := none
  continuationToken : Option String := none

/-- Result shape of `listObjects`. -/
structure ListResult where
  objects : List StoredObject
  commonPrefixes : List String
  isTruncated : Bool
  nextContinuationToken : Option String

/-- JS `keyAfterPrefix.indexOf(delimiter)`: first index at which `pat`
occurs as a contiguous sublist, `none` for JS `-1`. -/
def listIndexOf (pat : List Char) : List Char → Option Nat
  | [] => if pat = [] then some 0 else none
  | c :: t =>
    if pat.isPrefixOf (c :: t) then some 0 else (listIndexOf pat t).map (· + 1)

/-- Set-insertion preserving first-insertion order (JS `Set.add`). -/
def addUnique (l : List String) (x : String) : List String :=
  if x ∈ l then l else l ++ [x]

/-- The delimiter loop of `listObjects`: folds keys containing the
delimiter (after the prefix) into deduplicated common prefixes — taking
the slice up to and including the first delimiter character, as the
source's `slice(0, delimiterIndex + 1)` does — and keeps the rest as
individually listed objects. -/
def delimiterFold (pfx delim : String) :
    List StoredObject → List String → List String × List StoredObject
  | [], acc => (acc, [])
  | o :: rest, acc =>
    let keyAfter := o.key.data.drop pfx.data.length
    match listIndexOf delim.data keyAfter with
    | some di =>
      delimiterFold pfx delim rest
        (addUnique acc (String.mk (pfx.data ++ keyAfter.take (di + 1))))
    | none =>
      let (cps, objs) := delimiterFold pfx delim rest acc
      (cps, o :: objs)

/-- `listObjects`: filter by prefix, sort, resume strictly after the
continuation token (or `startAfter`), group by delimiter, truncate to
`maxKeys` and report the continuation token. The source uses two
DIFFERENT string orders here: the sort comparator is
`a.key.localeCompare(b.key)` (collation, `keyLocaleLE`), while the
resume comparison `obj.key > startKey` and the final
`Array.prototype.sort()` on common prefixes are code-unit comparisons
(`lexLt`/`strLE`; code-unit and code-point order coincide on strings
without surrogate pairs). -/
def listObjects (s : S3State) (bucket : String) (opts : ListOptions) :
    Except MockErr ListResult :=
  match mapGet s.objects bucket with
  | none => .error (.raw ("Bucket does not exist: " ++ bucket))
  | some bucketObjects =>
    let pfx := opts.pfx.getD ""
    let maxKeys := opts.maxKeys.getD 1000
    let allObjects :=
      List.insertionSort keyLocaleLE
        ((mapValues bucketObjects).filter
          (fun o => pfx.data.isPrefixOf o.key.data))
    let ct := opts.continuationToken.getD ""
    let startKey := if ct ≠ "" then ct else opts.startAfter.getD ""
    let afterStart :=
      if startKey ≠ "" then
        match jsFindIndex (fun o => lexLt startKey.data o.key.data) allObjects with
        | none => []
        | some i => allObjects.drop i
      else allObjects
    let delim := opts.delimiter.getD ""
    let (commonPfxs, listed) :=
      if delim ≠ "" then delimiterFold pfx delim afterStart [] else ([], afterStart)
    let isTruncated := decide (listed.length > maxKeys)
    let resultObjects := listed.take maxKeys
    .ok { objects := resultObjects,
          commonPrefixes := List.insertionSort strLE commonPfxs,
          isTruncated,
          nextContinuationToken :=
            if isTruncated then resultObjects.getLast?.map (fun o => o.key)
            else none }

/-- Overrides accepted by `copyObject`. An outer `none` models a key that
is absent from the overrides object, `some v` a key that is present with
value `v` (where `v` itself may be `none`, modelling an explicit
`undefined` — which, through JS spread, still clobbers the source's
value). -/
structure CopyOverrides where
  contentType : Option (Option String) := none
  contentEncoding : Option (Option String) := none
  contentLanguage : Option (Option String) := none
  contentDisposition : Option (Option String) := none
  cacheControl : Option (Option String) := none
  expires : Option (Option Nat) := none
  metadata : Option (Option (List KV)) := none
  storageClass : Option (Option String) := none
  serverSideEncryption : Option (Option String) := none
  sseKmsKeyId : Option (Option String) := none
  bucketKeyEnabled : Option (Option Bool) := none
  versionId : Option (Option String) := none
  acl : Option (Option String) := none
  checksumAlgorithm : Option (Option String) := none
  checksumCRC32 : Option (Option String) := none
  checksumCRC32C : Option (Option String) := none
  checksumSHA1 : Option (Option String) := none
  checksumSHA256 : Option (Option String) := none
  tags : Option (Option (List KV)) := none
deriving DecidableEq

/-- One field of the JS spread `{...sourceObject, ...options}`: a key
present in `options` (even with value `undefined`) wins, an absent key
falls back to the source object's field. -/
def jsSpread (srcVal : Option α) (ovField : Option (Option α)) : Option α :=
  match ovField with
  | none => srcVal
  | some v => v

/-- The options object produced by `{...sourceObject, ...options}` as read
by `putObject` (the spread also copies `key`, `body`, `etag`,
`lastModified` and `contentLength`, but `putObject` never reads those from
its options). -/
def mergeCopyOptions (src : StoredObject) (ov : CopyOverrides) : ObjectOptions :=
  { contentType := jsSpread src.contentType ov.contentType,
    contentEncoding := jsSpread src.contentEncoding ov.contentEncoding,
    contentLanguage := jsSpread src.contentLanguage ov.contentLanguage,
    contentDisposition := jsSpread src.contentDisposition ov.contentDisposition,
    cacheControl := jsSpread src.cacheControl ov.cacheControl,
    expires := jsSpread src.expires ov.expires,
    metadata := jsSpread src.metadata ov.metadata,
    storageClass := jsSpread src.storageClass ov.storageClass,
    serverSideEncryption :=
      jsSpread src.serverSideEncryption ov.serverSideEncryption,
    sseKmsKeyId := jsSpread src.sseKmsKeyId ov.sseKmsKeyId,
    bucketKeyEnabled := jsSpread src.bucketKeyEnabled ov.bucketKeyEnabled,
    versionId := jsSpread src.versionId ov.versionId,
    acl := jsSpread src.acl ov.acl,
    checksumAlgorithm := jsSpread src.checksumAlgorithm ov.checksumAlgorithm,
    checksumCRC32 := jsSpread src.checksumCRC32 ov.checksumCRC32,
    checksumCRC32C := jsSpread src.checksumCRC32C ov.checksumCRC32C,
    checksumSHA1 := jsSpread src.checksumSHA1 ov.checksumSHA1,
    checksumSHA256 := jsSpread src.checksumSHA256 ov.checksumSHA256,
    tags := jsSpread src.tags ov.tags }

/-- `copyObject`: fails when the source object is absent, otherwise an
internal `putObject` of the source body under the destination with
`{...sourceObject, ...options}` as options. -/
def copyObject (md5Hex : List Nat → String) (now : Nat) (s : S3State)
    (sourceBucket sourceKey destBucket destKey : String)
    (ov : CopyOverrides) : (Except MockErr StoredObject) × S3State :=
  match getObject s sourceBucket sourceKey with
  | none =>
    (.error (.raw ("Source object does not exist: " ++ sourceBucket ++ "/" ++
      sourceKey)), s)
  | some sourceObject =>
    putObject md5Hex now s destBucket destKey sourceObject.body
      (mergeCopyOptions sourceObject ov)

/-- Options of `createMultipartUpload`. -/
structure MultipartOptions where
  metadata : Option (List KV) := none
  contentType : Option String := none
  storageClass : Option String := none
  serverSideEncryption : Option String := none
  sseKmsKeyId : Option String := none
  acl : Option String := none
  tags : Option (List KV) := none

/-- `createMultipartUpload`: auto-creates the bucket and registers a fresh
upload record. The `randomUUID()` upload id is an explicit argument. -/
def createMultipartUpload (now : Nat) (uploadId : String) (s : S3State)
    (bucket key : String) (opts : MultipartOptions) :
    (Except MockErr MultipartUpload) × S3State :=
  let s1 := (ensureBucket now s bucket).2
  let upload : MultipartUpload :=
    { uploadId, bucket, key, initiated := now, parts := [],
      metadata := opts.metadata, contentType := opts.contentType,
      storageClass := opts.storageClass,
      serverSideEncryption := opts.serverSideEncryption,
      sseKmsKeyId := opts.sseKmsKeyId, acl := opts.acl, tags := opts.tags }
  (.ok upload,
    { s1 with multipartUploads := mapSet s1.multipartUploads uploadId upload })

/-- `uploadPart`: keyed by part number, re-uploading replaces. -/
def uploadPart (md5Hex : List Nat → String) (now : Nat) (s : S3State)
    (uploadId : String) (partNumber : Nat) (data : List Nat) :
    (Except MockErr UploadedPart) × S3State :=
  match mapGet s.multipartUploads uploadId with
  | none => (.error (.raw ("Multipart upload not found: " ++ uploadId)), s)
  | some upload =>
    let part : UploadedPart :=
      { partNumber, etag := "\"" ++ md5Hex data ++ "\"",
        size := data.length, data, lastModified := now }
    let upload2 : MultipartUpload :=
      { upload with parts := mapSet upload.parts partNumber part }
    (.ok part,
      { s with multipartUploads := mapSet s.multipartUploads uploadId upload2 })

/-- The validation loop of `completeMultipartUpload`: resolves each
referenced part, failing on a missing part number or an ETag mismatch,
and returns the stored parts in the order of the references. -/
def collectParts (parts : List (Nat × UploadedPart)) :
    List PartRef → Except MockErr (List UploadedPart)
  | [] => .ok []
  | r :: rest =>
    match mapGet parts r.PartNumber with
    | none => .error (.raw ("Part " ++ toString r.PartNumber ++ " not found"))
    | some p =>
      if p.etag ≠ r.ETag then
        .error (.raw ("ETag mismatch for part " ++ toString r.PartNumber))
      else (collectParts parts rest).map (fun l => p :: l)

/-- `completeMultipartUpload`: validate every referenced part, concatenate
the part bodies in reference order, store the final object via an
internal `putObject` with the upload's carried metadata, then discard the
upload record. All validation happens before any mutation. -/
def completeMultipartUpload (md5Hex : List Nat → String) (now : Nat)
    (s : S3State) (uploadId : String) (parts : List PartRef) :
    (Except MockErr StoredObject) × S3State :=
  match mapGet s.multipartUploads uploadId with
  | none => (.error (.raw ("Multipart upload not found: " ++ uploadId)), s)
  | some upload =>
    match collectParts upload.parts parts with
    | .error e => (.error e, s)
    | .ok orderedParts =>
      let body := (orderedParts.map (fun p => p.data)).flatten
      match putObject md5Hex now s upload.bucket upload.key body
        ({ metadata := upload.metadata, contentType := upload.contentType,
           storageClass := upload.storageClass,
           serverSideEncryption := upload.serverSideEncryption,
           sseKmsKeyId := upload.sseKmsKeyId, acl := upload.acl,
           tags := upload.tags }) with
      | (.error e, s1) => (.error e, s1)
      | (.ok object, s1) =>
        (.ok object,
          { s1 with multipartUploads := mapDel s1.multipartUploads uploadId })

/-- `abortMultipartUpload`. -/
def abortMultipartUpload (s : S3State) (uploadId : String) : Bool × S3State :=
  (mapHas s.multipartUploads uploadId,
    { s with multipartUploads := mapDel s.multipartUploads uploadId })

/-- `getMultipartUpload`. -/
def getMultipartUpload (s : S3State) (uploadId : String) :
    Option MultipartUpload :=
  mapGet s.multipartUploads uploadId

/-- `listMultipartUploads`: filter by bucket and (truthy) prefix, then
truncate to `maxUploads || 1000`. -/
def listMultipartUploads (s : S3State) (bucket : String)
    (pfx : Option String) (maxUploads : Option Nat) : List MultipartUpload :=
  let p := pfx.getD ""
  let uploads :=
    (mapValues s.multipartUploads).filter
      (fun u => u.bucket = bucket && (p = "" || p.data.isPrefixOf u.key.data))
  uploads.take (let m := maxUploads.getD 0; if m = 0 then 1000 else m)

/-- `updateBucketConfiguration`. The source's shallow merge
`{...configuration, ...config}` is generalised to an arbitrary
configuration-transforming `patch` (every shallow merge is an instance),
since no claim inspects configuration contents. -/
def updateBucketConfiguration (s : S3State) (bucket : String)
    (patch : BucketConfiguration → BucketConfiguration) :
    (Except MockErr Unit) × S3State :=
  match mapGet s.buckets bucket with
  | none => (.error (.raw ("Bucket does not exist: " ++ bucket)), s)
  | some b =>
    let b2 : StoredBucket := { b with configuration := patch b.configuration }
    (.ok (), { s with buckets := mapSet s.buckets bucket b2 })

/-- `getBucketConfiguration`. -/
def getBucketConfiguration (s : S3State) (bucket : String) :
    Except MockErr BucketConfiguration :=
  match mapGet s.buckets bucket with
  | none => .error (.raw ("Bucket does not exist: " ++ bucket))
  | some b => .ok b.configuration

/-- `setObjectTags`. -/
def setObjectTags (s : S3State) (bucket key : String) (tags : List KV) :
    (Except MockErr Unit) × S3State :=
  match mapGet s.objects bucket with
  | none => (.error (.raw ("Bucket does not exist: " ++ bucket)), s)
  | some bucketObjects =>
    match mapGet bucketObjects key with
    | none => (.error (.raw ("Object does not exist: " ++ key)), s)
    | some object =>
      let object2 : StoredObject := { object with tags := some tags }
      (.ok (),
        { s with objects :=
            mapSet s.objects bucket (mapSet bucketObjects key object2) })

/-- `deleteObjectTags` (clearing tags of an absent object is a no-op). -/
def deleteObjectTags (s : S3State) (bucket key : String) :
    (Except MockErr Unit) × S3State :=
  match mapGet s.objects bucket with
  | none => (.error (.raw ("Bucket does not exist: " ++ bucket)), s)
  | some bucketObjects =>
    match mapGet bucketObjects key with
    | none => (.ok (), s)
    | some object =>
      let object2 : StoredObject := { object with tags := none }
      (.ok (),
        { s with objects :=
            mapSet s.objects bucket (mapSet bucketObjects key object2) })

/-- `reset`: clears all three maps. -/
def reset (_s : S3State) : S3State :=
  { buckets := [], objects := [], multipartUploads := [] }

end S3MockStore


/-! ### Operation handlers (`src/s3/handlers.ts`) -/

namespace Handlers

/-- JS truthiness of an optional string parameter (`undefined`, `null` and
`""` are falsy). -/
def strTruthy (o : Option String) : Bool := decide (o.getD "" ≠ "")

/-- Decimal value of a digit string (the model of `parseInt(d, 10)` on a
string matched by `\d+`). -/
def digitsToNat (l : List Char) : Nat :=
  l.foldl (fun acc c => acc * 10 + (c.toNat - 48)) 0

/-- The `Range` regex `^bytes=(\d*)-(\d*)$`: returns the two optional
captured numbers, `none` when the expression does not match. -/
def parseRangeExpr (r : String) : Option (Option Nat × Option Nat) :=
  let cs := r.data
  if ("bytes=".data).isPrefixOf cs then
    let rest := cs.drop 6
    let a := rest.takeWhile (fun c => decide (c ≠ '-'))
    let b := rest.drop (a.length + 1)
    if a.length = rest.length then none
    else if b.any (fun c => decide (c = '-')) then none
    else if a.all Char.isDigit && b.all Char.isDigit then
      some (if a.isEmpty then none else some (digitsToNat a),
            if b.isEmpty then none else some (digitsToNat b))
    else none
  else none

/-- The `end` bound of a range request: the captured number clamped to
`contentLength - 1` (`Math.min(parsed, contentLength - 1)`), defaulting
to `contentLength - 1` when absent. -/
def rangeEnd (eo : Option Nat) (contentLength : Nat) : Int :=
  match eo with
  | some e0 => min (e0 : Int) ((contentLength : Int) - 1)
  | none => (contentLength : Int) - 1

/-- The range-request section of the GetObject handler: start defaults to
0, end defaults to (and is clamped at) `contentLength - 1`; an empty
window or a start at or past the content length silently ignores the
range; otherwise the body is sliced (`slice(start, end + 1)`), the
content length recomputed and the content-range descriptor set. -/
def applyRange (body : List Nat) (contentLength : Nat)
    (range : Option String) : List Nat × Nat × Option String :=
  match range with
  | none => (body, contentLength, none)
  | some r =>
    match parseRangeExpr r with
    | none => (body, contentLength, none)
    | some (so, eo) =>
      let start : Nat := so.getD 0
      let endI : Int := rangeEnd eo contentLength
      if (start : Int) ≤ endI ∧ (start : Int) < (contentLength : Int) then
        let sliced := (body.drop start).take (endI.toNat + 1 - start)
        (sliced, sliced.length,
          some ("bytes " ++ toString start ++ "-" ++ toString endI.toNat ++
            "/" ++ toString contentLength))
      else (body, contentLength, none)

/-- `GetObjectCommandInput` (the fields the handler reads). -/
structure GetObjectInput where
  Bucket : Option String := none
  Key : Option String := none
  IfMatch : Option String := none
  IfNoneMatch : Option String := none
  IfModifiedSince : Option Nat := none
  IfUnmodifiedSince : Option Nat := none
  Range : Option String := none

/-- `GetObjectCommandOutput` (`status` is `$metadata.httpStatusCode`). -/
structure GetObjectOutput where
  status : Nat
  Body : Option (List Nat) := none
  ContentLength : Option Nat := none
  ContentType : Option String := none
  ContentEncoding : Option String := none
  ContentLanguage : Option String := none
  ContentDisposition : Option String := none
  CacheControl : Option String := none
  Expires : Option Nat := none
  ETag : Option String := none
  LastModified : Option Nat := none
  Metadata : Option (List KV) := none
  StorageClass : Option String := none
  ServerSideEncryption : Option String := none
  SSEKMSKeyId : Option String := none
  BucketKeyEnabled : Option Bool := none
  VersionId : Option String := none
  ContentRange : Option String := none
  ChecksumCRC32 : Option String := none
  ChecksumCRC32C : Option String := none
  ChecksumSHA1 : Option String := none
  ChecksumSHA256 : Option String := none

/-- The 200 GetObject response for object `o` under an optional `Range`
header (the handler's final response assembly). -/
def mkGetObjectResponse (o : StoredObject) (rng : Option String) :
    GetObjectOutput :=
  let (body, contentLength, contentRange) :=
    applyRange o.body o.contentLength rng
  { status := 200,
    Body := some body,
    ContentLength := some contentLength,
    ContentType := o.contentType,
    ContentEncoding := o.contentEncoding,
    ContentLanguage := o.contentLanguage,
    ContentDisposition := o.contentDisposition,
    CacheControl := o.cacheControl,
    Expires := o.expires,
    ETag := some o.etag,
    LastModified := some o.lastModified,
    Metadata := o.metadata,
    StorageClass := o.storageClass,
    ServerSideEncryption := o.serverSideEncryption,
    SSEKMSKeyId := o.sseKmsKeyId,
    BucketKeyEnabled := o.bucketKeyEnabled,
    VersionId := o.versionId,
    ContentRange := contentRange,
    ChecksumCRC32 := o.checksumCRC32,
    ChecksumCRC32C := o.checksumCRC32C,
    ChecksumSHA1 := o.checksumSHA1,
    ChecksumSHA256 := o.checksumSHA256 }

/-- The GetObject handler: required parameters, bucket existence, object
existence, the four conditional headers in source order, then the range
section and the 200 response. -/
def getObjectHandler (s : S3State) (input : GetObjectInput) :
    Except MockErr GetObjectOutput :=
  if !strTruthy input.Bucket then
    .error (createAwsError "MissingRequiredParameter"
      "Missing required key Bucket in params" 400)
  else if !strTruthy input.Key then
    .error (createAwsError "MissingRequiredParameter"
      "Missing required key Key in params" 400)
  else
    let bucket := input.Bucket.getD ""
    let key := input.Key.getD ""
    if !S3MockStore.bucketExists s bucket then
      .error (createAwsError "NoSuchBucket"
        ("The specified bucket does not exist: " ++ bucket) 404)
    else
      match S3MockStore.getObject s bucket key with
      | none =>
        .error (createAwsError "NoSuchKey"
          ("The specified key does not exist: " ++ key) 404)
      | some o =>
        if strTruthy input.IfMatch && decide (input.IfMatch.getD "" ≠ o.etag) then
          .error (createAwsError "PreconditionFailed"
            "At least one of the pre-conditions you specified did not hold" 412)
        else if strTruthy input.IfNoneMatch &&
            decide (input.IfNoneMatch.getD "" = o.etag) then
          .ok { status := 304 }
        else if (match input.IfModifiedSince with
                 | some t => decide (o.lastModified ≤ t)
                 | none => false) then
          .ok { status := 304 }
        else if (match input.IfUnmodifiedSince with
                 | some t => decide (o.lastModified > t)
                 | none => false) then
          .error (createAwsError "PreconditionFailed"
            "At least one of the pre-conditions you specified did not hold" 412)
        else
          .ok (mkGetObjectResponse o input.Range)

/-- `HeadObjectCommandInput` (the fields the handler reads). -/
structure HeadObjectInput where
  Bucket : Option String := none
  Key : Option String := none
  IfMatch : Option String := none
  IfNoneMatch : Option String := none
  IfModifiedSince : Option Nat := none
  IfUnmodifiedSince : Option Nat := none

/-- `HeadObjectCommandOutput`. -/
structure HeadObjectOutput where
  status : Nat
  ContentLength : Option Nat := none
  ContentType : Option String := none
  ContentEncoding : Option String := none
  ContentLanguage : Option String := none
  ContentDisposition : Option String := none
  CacheControl : Option String := none
  Expires : Option Nat := none
  ETag : Option String := none
  LastModified : Option Nat := none
  Metadata : Option (List KV) := none
  StorageClass : Option String := none
  ServerSideEncryption : Option String := none
  SSEKMSKeyId : Option String := none
  BucketKeyEnabled : Option Bool := none
  VersionId : Option String := none
  ChecksumCRC32 : Option String := none
  ChecksumCRC32C : Option String := none
  ChecksumSHA1 : Option String := none
  ChecksumSHA256 : Option String := none

/-- The 200 HeadObject response for object `o`. -/
def mkHeadObjectResponse (o : StoredObject) : HeadObjectOutput :=
  { status := 200,
    ContentLength := some o.contentLength,
    ContentType := o.contentType,
    ContentEncoding := o.contentEncoding,
    ContentLanguage := o.contentLanguage,
    ContentDisposition := o.contentDisposition,
    CacheControl := o.cacheControl,
    Expires := o.expires,
    ETag := some o.etag,
    LastModified := some o.lastModified,
    Metadata := o.metadata,
    StorageClass := o.storageClass,
    ServerSideEncryption := o.serverSideEncryption,
    SSEKMSKeyId := o.sseKmsKeyId,
    BucketKeyEnabled := o.bucketKeyEnabled,
    VersionId := o.versionId,
    ChecksumCRC32 := o.checksumCRC32,
    ChecksumCRC32C := o.checksumCRC32C,
    ChecksumSHA1 := o.checksumSHA1,
    ChecksumSHA256 := o.checksumSHA256 }

/-- The HeadObject handler: identical validation and conditional-header
order as GetObject (missing keys report `NotFound` instead of
`NoSuchKey`), no body and no range section. -/
def headObjectHandler (s : S3State) (input : HeadObjectInput) :
    Except MockErr HeadObjectOutput :=
  if !strTruthy input.Bucket then
    .error (createAwsError "MissingRequiredParameter"
      "Missing required key Bucket in params" 400)
  else if !strTruthy input.Key then
    .error (createAwsError "MissingRequiredParameter"
      "Missing required key Key in params" 400)
  else
    let bucket := input.Bucket.getD ""
    let key := input.Key.getD ""
    if !S3MockStore.bucketExists s bucket then
      .error (createAwsError "NoSuchBucket"
        ("The specified bucket does not exist: " ++ bucket) 404)
    else
      match S3MockStore.getObject s bucket key with
      | none =>
        .error (createAwsError "NotFound"
          ("The specified key does not exist: " ++ key) 404)
      | some o =>
        if strTruthy input.IfMatch && decide (input.IfMatch.getD "" ≠ o.etag) then
          .error (createAwsError "PreconditionFailed"
            "At least one of the pre-conditions you specified did not hold" 412)
        else if strTruthy input.IfNoneMatch &&
            decide (input.IfNoneMatch.getD "" = o.etag) then
          .ok { status := 304 }
        else if (match input.IfModifiedSince with
                 | some t => decide (o.lastModified ≤ t)
                 | none => false) then
          .ok { status := 304 }
        else if (match input.IfUnmodifiedSince with
                 | some t => decide (o.lastModified > t)
                 | none => false) then
          .error (createAwsError "PreconditionFailed"
            "At least one of the pre-conditions you specified did not hold" 412)
        else
          .ok (mkHeadObjectResponse o)

/-- The `CopySource` regex `^\/?(.*?)\/(.*)/`: an optional leading slash,
then the shortest prefix up to a `/`, then the rest. Percent-decoding of
the source key (`decodeURIComponent`) is modelled as the identity; every
claim-relevant input uses unencoded keys. -/
def parseCopySource (src : String) : Option (String × String) :=
  let cs := src.data
  let t := if cs.head? = some '/' then cs.drop 1 else cs
  match S3MockStore.listIndexOf ['/'] t with
  | some i => some (String.mk (t.take i), String.mk (t.drop (i + 1)))
  | none => if cs.head? = some '/' then some ("", String.mk t) else none

/-- `CopyObjectCommandInput` (the fields the handler reads). -/
structure CopyObjectInput where
  Bucket : Option String := none
  Key : Option String := none
  CopySource : Option String := none
  ContentType : Option String := none
  Metadata : Option (List KV) := none
  CacheControl : Option String := none
  ContentDisposition : Option String := none
  ContentEncoding : Option String := none
  ContentLanguage : Option String := none
  Expires : Option Nat := none
  StorageClass : Option String := none
  ServerSideEncryption : Option String := none
  SSEKMSKeyId : Option String := none
  ACL : Option String := none

/-- `CopyObjectCommandOutput` (`CopyObjectResult`). -/
structure CopyObjectOutput where
  status : Nat
  ETag : Option String := none
  LastModified : Option Nat := none

/-- The CopyObject handler: parameter validation, source parsing, source
bucket and key existence, then the store-level copy. Note that the
handler passes every override key explicitly (possibly `undefined`),
which is why each override field below is `some _`. -/
def copyObjectHandler (md5Hex : List Nat → String) (now : Nat)
    (s : S3State) (input : CopyObjectInput) :
    (Except MockErr CopyObjectOutput) × S3State :=
  if !strTruthy input.Bucket || !strTruthy input.Key ||
      !strTruthy input.CopySource then
    (.error (createAwsError "MissingRequiredParameter"
      "Missing required parameters" 400), s)
  else
    match parseCopySource (input.CopySource.getD "") with
    | none =>
      (.error (createAwsError "InvalidArgument" "Invalid CopySource format" 400), s)
    | some (sourceBucket, sourceKey) =>
      if !S3MockStore.bucketExists s sourceBucket then
        (.error (createAwsError "NoSuchBucket"
          ("The specified source bucket does not exist: " ++ sourceBucket) 404), s)
      else if !S3MockStore.objectExists s sourceBucket sourceKey then
        (.error (createAwsError "NoSuchKey"
          ("The specified source key does not exist: " ++ sourceKey) 404), s)
      else
        let ov : S3MockStore.CopyOverrides :=
          { contentType := some input.ContentType,
            metadata := some input.Metadata,
            cacheControl := some input.CacheControl,
            contentDisposition := some input.ContentDisposition,
            contentEncoding := some input.ContentEncoding,
            contentLanguage := some input.ContentLanguage,
            expires := some input.Expires,
            storageClass := some input.StorageClass,
            serverSideEncryption := some input.ServerSideEncryption,
            sseKmsKeyId := some input.SSEKMSKeyId,
            acl := some input.ACL }
        match S3MockStore.copyObject md5Hex now s sourceBucket sourceKey
          (input.Bucket.getD "") (input.Key.getD "") ov with
        | (.error e, s1) => (.error e, s1)
        | (.ok obj, s1) =>
          (.ok { status := 200, ETag := some obj.etag,
                 LastModified := some obj.lastModified }, s1)

/-- `CompleteMultipartUploadCommandInput`; `Parts` is
`input.MultipartUpload?.Parts`. -/
structure CompleteMultipartUploadInput where
  Bucket : Option String := none
  Key : Option String := none
  UploadId : Option String := none
  Parts : Option (List PartRef) := none

/-- `CompleteMultipartUploadCommandOutput`. -/
structure CompleteMultipartUploadOutput where
  status : Nat
  Location : Option String := none
  Bucket : Option String := none
  Key : Option String := none
  ETag : Option String := none
  ServerSideEncryption : Option String := none
  SSEKMSKeyId : Option String := none
  VersionId : Option String := none

/-- The CompleteMultipartUpload handler. The call into
`store.completeMultipartUpload` is not wrapped in any translation, so a
store-level failure (missing part, ETag mismatch) propagates as the raw
error. -/
def completeMultipartUploadHandler (md5Hex : List Nat → String) (now : Nat)
    (s : S3State) (input : CompleteMultipartUploadInput) :
    (Except MockErr CompleteMultipartUploadOutput) × S3State :=
  if !strTruthy input.Bucket || !strTruthy input.Key ||
      !strTruthy input.UploadId || input.Parts.isNone then
    (.error (createAwsError "MissingRequiredParameter"
      "Missing required parameters" 400), s)
  else
    let uploadId := input.UploadId.getD ""
    match S3MockStore.getMultipartUpload s uploadId with
    | none =>
      (.error (createAwsError "NoSuchUpload"
        ("The specified multipart upload does not exist: " ++ uploadId) 404), s)
    | some _ =>
      match S3MockStore.completeMultipartUpload md5Hex now s uploadId
        (input.Parts.getD []) with
      | (.error e, s1) => (.error e, s1)
      | (.ok object, s1) =>
        (.ok { status := 200,
               Location := some ("https://" ++ input.Bucket.getD "" ++
                 ".s3.amazonaws.com/" ++ input.Key.getD ""),
               Bucket := input.Bucket,
               Key := input.Key,
               ETag := some object.etag,
               ServerSideEncryption := object.serverSideEncryption,
               SSEKMSKeyId := object.sseKmsKeyId,
               VersionId := object.versionId }, s1)

/-- `DeleteBucketCommandInput`. -/
structure DeleteBucketInput where
  Bucket : Option String := none

/-- A response carrying only `$metadata`. -/
structure SimpleOutput where
  status : Nat

/-- The DeleteBucket handler: translates the store's not-empty failure
into the structured `BucketNotEmpty` 409 error. -/
def deleteBucketHandler (s : S3State) (input : DeleteBucketInput) :
    (Except MockErr SimpleOutput) × S3State :=
  if !strTruthy input.Bucket then
    (.error (createAwsError "MissingRequiredParameter"
      "Missing required key Bucket in params" 400), s)
  else
    let bucket := input.Bucket.getD ""
    if !S3MockStore.bucketExists s bucket then
      (.error (createAwsError "NoSuchBucket"
        ("The specified bucket does not exist: " ++ bucket) 404), s)
    else
      match S3MockStore.deleteBucket s bucket with
      | (.error _, s1) =>
        (.error (createAwsError "BucketNotEmpty"
          ("The bucket you tried to delete is not empty: " ++ bucket) 409), s1)
      | (.ok _, s1) => (.ok { status := 200 }, s1)

end Handlers


/-! ### Basic store lemmas -/

namespace S3MockStore

theorem createBucket_has {s : S3State} {name : String}
    (h : mapHas s.buckets name = true) (now : Nat) (region acl : Option String) :
    createBucket now s name region acl =
      (.error (.raw ("Bucket already exists: " ++ name)), s) := by
  simp [createBucket, h]

theorem createBucket_not_has {s : S3State} {name : String}
    (h : mapHas s.buckets name = false) (now : Nat) (region acl : Option String) :
    createBucket now s name region acl =
      (.ok (mkStoredBucket now name region acl),
       { s with buckets := mapSet s.buckets name (mkStoredBucket now name region acl),
                objects := mapSet s.objects name [] }) := by
  simp [createBucket, h]

theorem ensureBucket_has {s : S3State} {name : String}
    (h : mapHas s.buckets name = true) (now : Nat) :
    (ensureBucket now s name).2 = s := by
  unfold ensureBucket
  rw [h]
  cases hm : mapGet s.buckets name <;> simp

theorem ensureBucket_not_has {s : S3State} {name : String}
    (h : mapHas s.buckets name = false) (now : Nat) :
    (ensureBucket now s name).2 =
      { s with buckets := mapSet s.buckets name (mkStoredBucket now name none none),
               objects := mapSet s.objects name [] } := by
  unfold ensureBucket
  rw [h]
  simp [createBucket_not_has h]

theorem bucketExists_ensureBucket (now : Nat) (s : S3State) (name : String) :
    bucketExists (ensureBucket now s name).2 name = true := by
  by_cases h : mapHas s.buckets name
  · rw [ensureBucket_has h]
    exact h
  · rw [ensureBucket_not_has (Bool.not_eq_true _ ▸ h)]
    simp [bucketExists, mapHas, mapGet_mapSet]

/-- After `ensureBucket`, the bucket's object map is present, provided the
state was aligned at that bucket (bucket record present iff object map
present). -/
theorem objects_ensureBucket (now : Nat) (s : S3State) (name : String)
    (hal : (mapGet s.buckets name).isSome ↔ (mapGet s.objects name).isSome) :
    ∃ bo, mapGet (ensureBucket now s name).2.objects name = some bo := by
  by_cases h : mapHas s.buckets name
  · rw [ensureBucket_has h]
    have : (mapGet s.objects name).isSome := hal.mp (by simpa [mapHas] using h)
    exact ⟨(mapGet s.objects name).get this, (Option.some_get this).symm⟩
  · rw [ensureBucket_not_has (Bool.not_eq_true _ ▸ h)]
    exact ⟨[], by simp [mapGet_mapSet]⟩

/-- Characterisation of a `putObject` on a state aligned at the target
bucket: it always succeeds, returning `mkStoredObject` and the
auto-vivified state with the object map extended at `key`. -/
theorem putObject_eq (md5Hex : List Nat → String) (now : Nat) (s : S3State)
    (bucket key : String) (body : List Nat) (opts : ObjectOptions)
    (hal : (mapGet s.buckets bucket).isSome ↔ (mapGet s.objects bucket).isSome) :
    ∃ bo, mapGet (ensureBucket now s bucket).2.objects bucket = some bo ∧
      putObject md5Hex now s bucket key body opts =
        (.ok (mkStoredObject md5Hex now key body opts),
         S3State.mk (ensureBucket now s bucket).2.buckets
           (mapSet (ensureBucket now s bucket).2.objects bucket
             (mapSet bo key (mkStoredObject md5Hex now key body opts)))
           (ensureBucket now s bucket).2.multipartUploads) := by
  obtain ⟨bo, hbo⟩ := objects_ensureBucket now s bucket hal
  exact ⟨bo, hbo, by simp [putObject, hbo]⟩

/-- `getObject` after `putObject` finds the freshly built object. -/
theorem getObject_putObject (md5Hex : List Nat → String) (now : Nat)
    (s : S3State) (bucket key : String) (body : List Nat)
    (opts : ObjectOptions)
    (hal : (mapGet s.buckets bucket).isSome ↔ (mapGet s.objects bucket).isSome) :
    getObject (putObject md5Hex now s bucket key body opts).2 bucket key =
      some (mkStoredObject md5Hex now key body opts) := by
  obtain ⟨bo, hbo, heq⟩ := putObject_eq md5Hex now s bucket key body opts hal
  rw [heq]
  simp [getObject, mapGet_mapSet]

/-- The target bucket exists after `putObject`. -/
theorem bucketExists_putObject (md5Hex : List Nat → String) (now : Nat)
    (s : S3State) (bucket key : String) (body : List Nat)
    (opts : ObjectOptions)
    (hal : (mapGet s.buckets bucket).isSome ↔ (mapGet s.objects bucket).isSome) :
    bucketExists (putObject md5Hex now s bucket key body opts).2 bucket = true := by
  obtain ⟨bo, hbo, heq⟩ := putObject_eq md5Hex now s bucket key body opts hal
  rw [heq]
  simpa [bucketExists, mapHas] using bucketExists_ensureBucket now s bucket

end S3MockStore
/-! ### C1: put/get roundtrip -/

/-- **C1.** For every bucket `B`, key `K` and byte body, `putObject`
followed by the GetObject handler returns a body byte-identical to the
stored body, a content length equal to the body's length and an ETag
equal to the quoted MD5 hex digest of the body. (`B`, `K` are nonempty —
the handler rejects falsy identifiers — and the starting state is
aligned at `B`: the bucket record and its object map are present
together, which holds in every reachable state by the C10 invariant.) -/
theorem put_then_get_roundtrip (md5Hex : List Nat → String) (now : Nat)
    (s : S3State) (bucket key : String) (body : List Nat)
    (opts : ObjectOptions) (hb : bucket ≠ "") (hk : key ≠ "")
    (hal : (mapGet s.buckets bucket).isSome ↔ (mapGet s.objects bucket).isSome) :
    ∃ out,
      Handlers.getObjectHandler
          (S3MockStore.putObject md5Hex now s bucket key body opts).2
          { Bucket := some bucket, Key := some key } = .ok out ∧
        out.status = 200 ∧
        out.Body = some body ∧
        out.ContentLength = some body.length ∧
        out.ETag = some ("\"" ++ md5Hex body ++ "\"") := by
  have hg := S3MockStore.getObject_putObject md5Hex now s bucket key body opts hal
  have hbx := S3MockStore.bucketExists_putObject md5Hex now s bucket key body opts hal
  have h : Handlers.getObjectHandler
      (S3MockStore.putObject md5Hex now s bucket key body opts).2
      { Bucket := some bucket, Key := some key } = .ok
      { status := 200, Body := some body,
        ContentLength := some body.length,
        ContentType := opts.contentType,
        ContentEncoding := opts.contentEncoding,
        ContentLanguage := opts.contentLanguage,
        ContentDisposition := opts.contentDisposition,
        CacheControl := opts.cacheControl,
        Expires := opts.expires,
        ETag := some ("\"" ++ md5Hex body ++ "\""),
        LastModified := some now,
        Metadata := opts.metadata,
        StorageClass := some
          (match opts.storageClass with
           | some v => if v = "" then "STANDARD" else v
           | none => "STANDARD"),
        ServerSideEncryption := opts.serverSideEncryption,
        SSEKMSKeyId := opts.sseKmsKeyId,
        BucketKeyEnabled := opts.bucketKeyEnabled,
        VersionId := opts.versionId,
        ContentRange := none,
        ChecksumCRC32 := opts.checksumCRC32,
        ChecksumCRC32C := opts.checksumCRC32C,
        ChecksumSHA1 := opts.checksumSHA1,
        ChecksumSHA256 := opts.checksumSHA256 } := by
    simp [Handlers.getObjectHandler, Handlers.strTruthy, hb, hk, hbx, hg,
      Handlers.applyRange, Handlers.mkGetObjectResponse, S3MockStore.mkStoredObject]
  exact ⟨_, h, rfl, rfl, rfl, rfl⟩

/-- Witness for C1 at a concrete input. -/
theorem put_then_get_roundtrip_witness :
    ∃ out,
      Handlers.getObjectHandler
          (S3MockStore.putObject (fun l => toString l.length) 7 initialState
            "b" "k" [10, 20, 30] {}).2
          { Bucket := some "b", Key := some "k" } = .ok out ∧
        out.status = 200 ∧
        out.Body = some [10, 20, 30] ∧
        out.ContentLength = some [10, 20, 30].length ∧
        out.ETag = some ("\"" ++ toString [10, 20, 30].length ++ "\"") :=
  put_then_get_roundtrip (fun l => toString l.length) 7 initialState
    "b" "k" [10, 20, 30] {} (by decide) (by decide) (by decide)

/-! ### C2: conditional-request evaluation order -/

/-- Outcome of the conditional-request policy. -/
inductive CondOutcome
  | fail412
  | resp304
  | proceed
deriving DecidableEq

/-- The conditional-request policy as the specification states it,
evaluated in this fixed order: `IfMatch` (fail 412 when the given ETag
differs from the object's), then `IfNoneMatch` (304 when the given ETag
equals the object's), then `IfModifiedSince` (304 when the object was not
modified after the given time), then `IfUnmodifiedSince` (fail 412 when
it was modified after the given time). A string header is "given" when
present and truthy (to JS, an empty string is no header value). -/
def condSpec (etag : String) (lastModified : Nat)
    (ifMatch ifNoneMatch : Option String)
    (ifModifiedSince ifUnmodifiedSince : Option Nat) : CondOutcome :=
  if Handlers.strTruthy ifMatch && decide (ifMatch.getD "" ≠ etag) then
    .fail412
  else if Handlers.strTruthy ifNoneMatch &&
      decide (ifNoneMatch.getD "" = etag) then
    .resp304
  else if (match ifModifiedSince with
           | some t => decide (lastModified ≤ t)
           | none => false) then
    .resp304
  else if (match ifUnmodifiedSince with
           | some t => decide (lastModified > t)
           | none => false) then
    .fail412
  else .proceed

/-- **C2.** For every stored object, the GetObject and HeadObject
handlers evaluate the conditional headers exactly as `condSpec` does —
`IfMatch` then `IfNoneMatch` then `IfModifiedSince` then
`IfUnmodifiedSince` — failing with the structured 412 `PreconditionFailed`
error in the 412 cases, and short-circuiting with a *returned response*
of status 304 and no body (every payload field `none`) in the 304 cases
rather than raising an error. -/
theorem conditional_request_order (s : S3State) (b k : String)
    (o : StoredObject) (im inm : Option String) (ims ius : Option Nat)
    (rng : Option String) (hb : b ≠ "") (hk : k ≠ "")
    (hbx : S3MockStore.bucketExists s b = true)
    (hobj : S3MockStore.getObject s b k = some o) :
    Handlers.getObjectHandler s
        { Bucket := some b, Key := some k, IfMatch := im, IfNoneMatch := inm,
          IfModifiedSince := ims, IfUnmodifiedSince := ius, Range := rng } =
      (match condSpec o.etag o.lastModified im inm ims ius with
       | .fail412 => .error (createAwsError "PreconditionFailed"
           "At least one of the pre-conditions you specified did not hold" 412)
       | .resp304 => .ok { status := 304 }
       | .proceed => .ok (Handlers.mkGetObjectResponse o rng)) ∧
    Handlers.headObjectHandler s
        { Bucket := some b, Key := some k, IfMatch := im, IfNoneMatch := inm,
          IfModifiedSince := ims, IfUnmodifiedSince := ius } =
      (match condSpec o.etag o.lastModified im inm ims ius with
       | .fail412 => .error (createAwsError "PreconditionFailed"
           "At least one of the pre-conditions you specified did not hold" 412)
       | .resp304 => .ok { status := 304 }
       | .proceed => .ok (Handlers.mkHeadObjectResponse o)) := by
  have hsb : Handlers.strTruthy (some b) = true := by
    simp [Handlers.strTruthy, hb]
  have hsk : Handlers.strTruthy (some k) = true := by
    simp [Handlers.strTruthy, hk]
  constructor <;>
  · simp only [Handlers.getObjectHandler, Handlers.headObjectHandler,
      hsb, hsk, Bool.not_true, Bool.false_eq_true, if_false, hbx, hobj]
    by_cases h1 : Handlers.strTruthy im = true ∧ ¬im.getD "" = o.etag
    · simp [condSpec, h1, hbx, hobj]
    · by_cases h2 : Handlers.strTruthy inm = true ∧ inm.getD "" = o.etag
      · simp [condSpec, h1, h2, hbx, hobj]
      · by_cases h3 : (match ims with
          | some t => decide (o.lastModified ≤ t)
          | none => false) = true
        · simp [condSpec, h1, h2, h3, hbx, hobj]
        · by_cases h4 : (match ius with
            | some t => decide (t < o.lastModified)
            | none => false) = true
          · simp [condSpec, h1, h2, h3, h4, hbx, hobj]
          · simp [condSpec, h1, h2, h3, h4, hbx, hobj]

/-- Witness for C2 at a concrete input (an `IfNoneMatch` hit: both
handlers return the bodiless 304 response). -/
theorem conditional_request_order_witness :
    Handlers.getObjectHandler
        (S3MockStore.putObject (fun l => toString l.length) 5 initialState
          "b" "k" [1] {}).2
        { Bucket := some "b", Key := some "k", IfMatch := none,
          IfNoneMatch := some "\"1\"", IfModifiedSince := none,
          IfUnmodifiedSince := none, Range := none } =
      (match condSpec (S3MockStore.mkStoredObject (fun l => toString l.length)
          5 "k" [1] {}).etag
          (S3MockStore.mkStoredObject (fun l => toString l.length)
            5 "k" [1] {}).lastModified
          none (some "\"1\"") none none with
       | .fail412 => .error (createAwsError "PreconditionFailed"
           "At least one of the pre-conditions you specified did not hold" 412)
       | .resp304 => .ok { status := 304 }
       | .proceed => .ok (Handlers.mkGetObjectResponse
           (S3MockStore.mkStoredObject (fun l => toString l.length) 5 "k" [1] {})
           none)) ∧
    Handlers.headObjectHandler
        (S3MockStore.putObject (fun l => toString l.length) 5 initialState
          "b" "k" [1] {}).2
        { Bucket := some "b", Key := some "k", IfMatch := none,
          IfNoneMatch := some "\"1\"", IfModifiedSince := none,
          IfUnmodifiedSince := none } =
      (match condSpec (S3MockStore.mkStoredObject (fun l => toString l.length)
          5 "k" [1] {}).etag
          (S3MockStore.mkStoredObject (fun l => toString l.length)
            5 "k" [1] {}).lastModified
          none (some "\"1\"") none none with
       | .fail412 => .error (createAwsError "PreconditionFailed"
           "At least one of the pre-conditions you specified did not hold" 412)
       | .resp304 => .ok { status := 304 }
       | .proceed => .ok (Handlers.mkHeadObjectResponse
           (S3MockStore.mkStoredObject (fun l => toString l.length) 5 "k" [1] {}))) :=
  conditional_request_order
    (S3MockStore.putObject (fun l => toString l.length) 5 initialState
      "b" "k" [1] {}).2
    "b" "k"
    (S3MockStore.mkStoredObject (fun l => toString l.length) 5 "k" [1] {})
    none (some "\"1\"") none none none
    (by decide) (by decide) (by decide) (by decide)

/-! ### C3: range-request semantics -/

/-- A GetObject with no conditional headers on an existing object returns
the 200 response (with the range section applied). -/
theorem getObjectHandler_no_conditionals (s : S3State) (b k : String)
    (o : StoredObject) (rng : Option String) (hb : b ≠ "") (hk : k ≠ "")
    (hbx : S3MockStore.bucketExists s b = true)
    (hobj : S3MockStore.getObject s b k = some o) :
    Handlers.getObjectHandler s
        { Bucket := some b, Key := some k, Range := rng } =
      .ok (Handlers.mkGetObjectResponse o rng) := by
  simp [Handlers.getObjectHandler, Handlers.strTruthy, hb, hk, hbx, hobj]

/-- **C3.** For every get of an existing object with a
`bytes=start-end` range header (both ends optional): `start` defaults to
0, `end` defaults to `contentLength - 1` and is clamped to
`contentLength - 1`; when the window is empty (`start > end`) or `start`
is at or beyond the content length, the range is silently ignored and the
full body returned without error; otherwise the body is exactly the byte
slice `[start, end]`, the content length is the slice length and the
content-range descriptor is `bytes {start}-{end}/{totalLength}`. -/
theorem range_request_semantics (s : S3State) (b k : String)
    (o : StoredObject) (r : String) (so eo : Option Nat) (start : Nat)
    (endI : Int) (hb : b ≠ "") (hk : k ≠ "")
    (hbx : S3MockStore.bucketExists s b = true)
    (hobj : S3MockStore.getObject s b k = some o)
    (hparse : Handlers.parseRangeExpr r = some (so, eo))
    (hstart : start = so.getD 0)
    (hend : endI = Handlers.rangeEnd eo o.contentLength) :
    (((start : Int) ≤ endI ∧ (start : Int) < (o.contentLength : Int)) →
      ∃ out,
        Handlers.getObjectHandler s
            { Bucket := some b, Key := some k, Range := some r } = .ok out ∧
          out.status = 200 ∧
          out.Body = some ((o.body.drop start).take (endI.toNat + 1 - start)) ∧
          out.ContentLength =
            some ((o.body.drop start).take (endI.toNat + 1 - start)).length ∧
          out.ContentRange = some ("bytes " ++ toString start ++ "-" ++
            toString endI.toNat ++ "/" ++ toString o.contentLength)) ∧
    (¬((start : Int) ≤ endI ∧ (start : Int) < (o.contentLength : Int)) →
      ∃ out,
        Handlers.getObjectHandler s
            { Bucket := some b, Key := some k, Range := some r } = .ok out ∧
          out.status = 200 ∧
          out.Body = some o.body ∧
          out.ContentLength = some o.contentLength ∧
          out.ContentRange = none) := by
  have hnc := getObjectHandler_no_conditionals s b k o (some r) hb hk hbx hobj
  constructor
  · intro hcond
    have happ : Handlers.applyRange o.body o.contentLength (some r) =
        ((o.body.drop start).take (endI.toNat + 1 - start),
         ((o.body.drop start).take (endI.toNat + 1 - start)).length,
         some ("bytes " ++ toString start ++ "-" ++ toString endI.toNat ++
           "/" ++ toString o.contentLength)) := by
      simp only [Handlers.applyRange, hparse]
      rw [← hstart, ← hend, if_pos hcond]
    exact ⟨_, hnc, by simp [Handlers.mkGetObjectResponse, happ]⟩
  · intro hcond
    have happ : Handlers.applyRange o.body o.contentLength (some r) =
        (o.body, o.contentLength, none) := by
      simp only [Handlers.applyRange, hparse]
      rw [← hstart, ← hend, if_neg hcond]
    exact ⟨_, hnc, by simp [Handlers.mkGetObjectResponse, happ]⟩

/-- Witness for C3 at a concrete input: `bytes=0-4` on a 13-byte object
yields its first five bytes with content-range `bytes 0-4/13`. -/
theorem range_request_semantics_witness :
    (((0 : Nat) : Int) ≤ (4 : Int) ∧
        ((0 : Nat) : Int) <
          (((S3MockStore.mkStoredObject (fun l => toString l.length) 3 "k"
            [0, 1, 2, 3, 4, 5, 6, 7, 8, 9, 10, 11, 12] {}).contentLength : Nat) : Int)) ∧
    ∃ out,
      Handlers.getObjectHandler
          (S3MockStore.putObject (fun l => toString l.length) 3 initialState
            "b" "k" [0, 1, 2, 3, 4, 5, 6, 7, 8, 9, 10, 11, 12] {}).2
          { Bucket := some "b", Key := some "k", Range := some "bytes=0-4" } =
        .ok out ∧
      out.Body = some [0, 1, 2, 3, 4] ∧
      out.ContentRange = some "bytes 0-4/13" := by
  have h := range_request_semantics
    (S3MockStore.putObject (fun l => toString l.length) 3 initialState
      "b" "k" [0, 1, 2, 3, 4, 5, 6, 7, 8, 9, 10, 11, 12] {}).2
    "b" "k"
    (S3MockStore.mkStoredObject (fun l => toString l.length) 3 "k"
      [0, 1, 2, 3, 4, 5, 6, 7, 8, 9, 10, 11, 12] {})
    "bytes=0-4" (some 0) (some 4) 0 4
    (by decide) (by decide) (by decide) (by decide) (by decide)
    (by decide) (by decide)
  refine ⟨⟨by decide, by decide⟩, ?_⟩
  obtain ⟨out, hout, _, hbody, hcl, hcr⟩ := h.1 ⟨by decide, by decide⟩
  refine ⟨out, hout, ?_, ?_⟩
  · rw [hbody]; decide
  · rw [hcr]; decide

/-! ### C4 and C5: listObjects ordering and pagination -/

/-- A bucket `b` holding exactly the two keys `B` and `a`: the
collation sort puts `a` before `B`, while code-point (and JS code-unit)
order puts `B` before `a`. -/
def caseState : S3State :=
  (S3MockStore.putObject (fun l => toString l.length) 2
    ((S3MockStore.putObject (fun l => toString l.length) 1 initialState
      "b" "B" [1] {}).2) "b" "a" [2] {}).2

/-- **C4** (refuted: code bug). `listObjects` sorts with
`a.key.localeCompare(b.key)` — ICU collation — not with lexicographic
code-point order: a bucket holding the keys `B` and `a` is listed as
`["a", "B"]`, although `B` strictly precedes `a` in code-point order,
so for mixed-case keys the listing is not in ascending lexicographic
key order as claimed. -/
theorem listObjects_collation_not_lexicographic :
    Except.map (fun r => r.objects.map (fun o => o.key))
        (S3MockStore.listObjects caseState "b" {}) = .ok ["a", "B"] ∧
      lexLt "B".data "a".data = true :=
  ⟨rfl, rfl⟩

/-- **C5** (refuted: code bug). Pagination can lose keys, because the
sort uses `localeCompare` (collation: `a` before `B`) while the
continuation resume uses the code-unit comparison `obj.key > token`
(under which `"B" > "a"` is false). With the keys `B` and `a` and
`maxKeys = 1`, the first page returns `a` with `isTruncated = true` and
token `a`, and the follow-up call passing that token finds no key
code-unit-greater than `a` and returns no objects at all — yet `B` is
in the bucket. The follow-up therefore does not return the remaining
keys as claimed. -/
theorem listObjects_pagination_loses_key :
    Except.map
        (fun r => (r.objects.map (fun o => o.key), r.isTruncated,
          r.nextContinuationToken))
        (S3MockStore.listObjects caseState "b" { maxKeys := some 1 }) =
      .ok (["a"], true, some "a") ∧
      Except.map (fun r => (r.objects.map (fun o => o.key), r.isTruncated))
        (S3MockStore.listObjects caseState "b"
          { maxKeys := some 1, continuationToken := some "a" }) =
        .ok ([], false) ∧
      (S3MockStore.getObject caseState "b" "B").isSome = true :=
  ⟨rfl, rfl, rfl⟩

/-! ### C6 and C7: multipart completion -/

theorem mapDel_sublist [DecidableEq κ] (m : List (κ × β)) (k : κ) :
    (mapDel m k).Sublist m := by
  induction m with
  | nil => simp [mapDel]
  | cons e es ih =>
    by_cases h : e.1 = k
    · simp only [mapDel, if_pos h]
      exact List.sublist_cons_self e es
    · simp only [mapDel, if_neg h]
      exact ih.cons₂ e

theorem mem_mapDel_ne_key [DecidableEq κ] {m : List (κ × β)} {k : κ}
    {e : κ × β} (hnd : (mapKeys m).Nodup) (he : e ∈ mapDel m k) :
    e.1 ≠ k := by
  induction m with
  | nil => simp [mapDel] at he
  | cons f fs ih =>
    simp only [mapKeys, List.map_cons, List.nodup_cons] at hnd
    obtain ⟨hfnot, hnd'⟩ := hnd
    by_cases h : f.1 = k
    · simp only [mapDel, if_pos h] at he
      intro hek
      apply hfnot
      rw [h, ← hek]
      exact List.mem_map.mpr ⟨e, he, rfl⟩
    · simp only [mapDel, if_neg h] at he
      rcases List.mem_cons.mp he with heq | he2
      · rw [heq]
        exact h
      · exact ih (by simpa [mapKeys] using hnd') he2

/-- `getObject` reads only the `objects` map. -/
theorem getObject_congr_objects {s t : S3State} (h : s.objects = t.objects)
    (bucket key : String) :
    S3MockStore.getObject s bucket key = S3MockStore.getObject t bucket key := by
  simp [S3MockStore.getObject, h]

/-- Every upload returned by `listMultipartUploads` is a value of the
`multipartUploads` map. -/
theorem mem_listMultipartUploads {s : S3State} {bucket : String}
    {pfxo : Option String} {maxU : Option Nat} {u : MultipartUpload}
    (hu : u ∈ S3MockStore.listMultipartUploads s bucket pfxo maxU) :
    ∃ e ∈ s.multipartUploads, e.2 = u := by
  unfold S3MockStore.listMultipartUploads at hu
  have h1 := List.mem_of_mem_take hu
  have h2 := List.mem_of_mem_filter h1
  exact List.mem_map.mp h2

/-- When every referenced part exists with a matching ETag, the
validation loop succeeds and returns the stored parts in reference
order. -/
theorem collectParts_ok {ps : List (Nat × UploadedPart)}
    {refs : List PartRef}
    (h : ∀ pr ∈ refs, ∃ sp, mapGet ps pr.PartNumber = some sp ∧
      sp.etag = pr.ETag) :
    ∃ L, S3MockStore.collectParts ps refs = .ok L ∧
      L.map (fun p => p.data) =
        refs.map (fun pr => (mapGet ps pr.PartNumber).elim []
          (fun p => p.data)) := by
  induction refs with
  | nil => exact ⟨[], rfl, rfl⟩
  | cons r rest ih =>
    obtain ⟨sp, hsp, hetag⟩ := h r (List.mem_cons_self r rest)
    obtain ⟨L, hok, hdata⟩ := ih (fun pr hpr => h pr (List.mem_cons_of_mem r hpr))
    refine ⟨sp :: L, ?_, ?_⟩
    · simp [S3MockStore.collectParts, hsp, hetag, hok, Except.map]
    · simp [hdata, hsp]

/-- When some referenced part is missing or its ETag mismatches, the
validation loop fails. -/
theorem collectParts_error {ps : List (Nat × UploadedPart)}
    {refs : List PartRef}
    (h : ¬∀ pr ∈ refs, ∃ sp, mapGet ps pr.PartNumber = some sp ∧
      sp.etag = pr.ETag) :
    ∃ e, S3MockStore.collectParts ps refs = .error e := by
  induction refs with
  | nil => exact absurd (by simp) h
  | cons r rest ih =>
    cases hsp : mapGet ps r.PartNumber with
    | none =>
      exact ⟨.raw ("Part " ++ toString r.PartNumber ++ " not found"),
        by simp [S3MockStore.collectParts, hsp]⟩
    | some sp =>
      by_cases hetag : sp.etag = r.ETag
      · have hrest : ¬∀ pr ∈ rest, ∃ q, mapGet ps pr.PartNumber = some q ∧
            q.etag = pr.ETag := by
          intro hall
          apply h
          intro pr hpr
          rcases List.mem_cons.mp hpr with rfl | hmem
          · exact ⟨sp, hsp, hetag⟩
          · exact hall pr hmem
        obtain ⟨e, he⟩ := ih hrest
        exact ⟨e, by simp [S3MockStore.collectParts, hsp, hetag, he, Except.map]⟩
      · exact ⟨.raw ("ETag mismatch for part " ++ toString r.PartNumber),
          by simp [S3MockStore.collectParts, hsp, hetag]⟩

theorem ensureBucket_multipartUploads (now : Nat) (s : S3State)
    (name : String) :
    (S3MockStore.ensureBucket now s name).2.multipartUploads =
      s.multipartUploads := by
  by_cases h : mapHas s.buckets name
  · rw [S3MockStore.ensureBucket_has h]
  · rw [S3MockStore.ensureBucket_not_has (Bool.not_eq_true _ ▸ h)]

theorem putObject_multipartUploads (md5Hex : List Nat → String) (now : Nat)
    (s : S3State) (bucket key : String) (body : List Nat)
    (opts : ObjectOptions) :
    (S3MockStore.putObject md5Hex now s bucket key body opts).2.multipartUploads =
      s.multipartUploads := by
  unfold S3MockStore.putObject
  cases hbo : mapGet (S3MockStore.ensureBucket now s bucket).2.objects bucket <;>
    simp [hbo, ensureBucket_multipartUploads]

/-- **C6.** Completing a multipart upload whose referenced parts all
exist with matching client-declared ETags succeeds: the final object is
stored via an internal `putObject` under the upload's bucket and key with
the upload's carried metadata, its body is exactly the concatenation of
the referenced parts' bytes in the order given by the completion request
(not necessarily ascending part number), and the upload record is
discarded and no longer listed. -/
theorem completeMultipartUpload_success (md5Hex : List Nat → String)
    (now : Nat) (s : S3State) (uploadId : String) (parts : List PartRef)
    (upload : MultipartUpload)
    (hup : mapGet s.multipartUploads uploadId = some upload)
    (hparts : ∀ pr ∈ parts, ∃ sp, mapGet upload.parts pr.PartNumber = some sp ∧
      sp.etag = pr.ETag)
    (hal : (mapGet s.buckets upload.bucket).isSome ↔
      (mapGet s.objects upload.bucket).isSome)
    (hmk : (mapKeys s.multipartUploads).Nodup)
    (hids : ∀ e ∈ s.multipartUploads, e.2.uploadId = e.1) :
    ∃ obj s2,
      S3MockStore.completeMultipartUpload md5Hex now s uploadId parts =
        (.ok obj, s2) ∧
      S3MockStore.putObject md5Hex now s upload.bucket upload.key
          ((parts.map (fun pr => (mapGet upload.parts pr.PartNumber).elim []
            (fun p => p.data))).flatten)
          { metadata := upload.metadata, contentType := upload.contentType,
            storageClass := upload.storageClass,
            serverSideEncryption := upload.serverSideEncryption,
            sseKmsKeyId := upload.sseKmsKeyId, acl := upload.acl,
            tags := upload.tags } =
        (.ok obj, S3State.mk s2.buckets s2.objects s.multipartUploads) ∧
      s2.multipartUploads = mapDel s.multipartUploads uploadId ∧
      obj.body = (parts.map (fun pr => (mapGet upload.parts pr.PartNumber).elim []
        (fun p => p.data))).flatten ∧
      obj.metadata = upload.metadata ∧
      obj.contentType = upload.contentType ∧
      S3MockStore.getObject s2 upload.bucket upload.key = some obj ∧
      S3MockStore.getMultipartUpload s2 uploadId = none ∧
      ∀ u ∈ S3MockStore.listMultipartUploads s2 upload.bucket none none,
        u.uploadId ≠ uploadId := by
  obtain ⟨L, hok, hdata⟩ := collectParts_ok hparts
  have hbody : (L.map (fun p => p.data)).flatten =
      (parts.map (fun pr => (mapGet upload.parts pr.PartNumber).elim []
        (fun p => p.data))).flatten := by rw [hdata]
  set carried : ObjectOptions :=
    { metadata := upload.metadata, contentType := upload.contentType,
      storageClass := upload.storageClass,
      serverSideEncryption := upload.serverSideEncryption,
      sseKmsKeyId := upload.sseKmsKeyId, acl := upload.acl,
      tags := upload.tags } with hcarried
  obtain ⟨bo, hbo, hput⟩ := S3MockStore.putObject_eq md5Hex now s upload.bucket
    upload.key ((L.map (fun p => p.data)).flatten) carried hal
  have hEm := ensureBucket_multipartUploads now s upload.bucket
  have hcomp : S3MockStore.completeMultipartUpload md5Hex now s uploadId parts =
      (.ok (S3MockStore.mkStoredObject md5Hex now upload.key
        ((L.map (fun p => p.data)).flatten) carried),
       S3State.mk (S3MockStore.ensureBucket now s upload.bucket).2.buckets
         (mapSet (S3MockStore.ensureBucket now s upload.bucket).2.objects
           upload.bucket (mapSet bo upload.key
             (S3MockStore.mkStoredObject md5Hex now upload.key
               ((L.map (fun p => p.data)).flatten) carried)))
         (mapDel s.multipartUploads uploadId)) := by
    simp only [S3MockStore.completeMultipartUpload, hup, hok]
    rw [hput]
    simp [hEm]
  refine ⟨_, _, hcomp, ?_, rfl, ?_, ?_, ?_, ?_, ?_, ?_⟩
  · rw [← hbody, hput]
    simp [hEm]
  · simpa [S3MockStore.mkStoredObject] using hbody
  · simp [S3MockStore.mkStoredObject, hcarried]
  · simp [S3MockStore.mkStoredObject, hcarried]
  · have hg := S3MockStore.getObject_putObject md5Hex now s upload.bucket
      upload.key ((L.map (fun p => p.data)).flatten) carried hal
    rw [hput] at hg
    rw [← hg]
    exact getObject_congr_objects rfl upload.bucket upload.key
  · show mapGet (mapDel s.multipartUploads uploadId) uploadId = none
    rw [mapGet_mapDel_of_nodup _ _ _ hmk]
    simp
  · intro u hu
    obtain ⟨e, he, hev⟩ := mem_listMultipartUploads hu
    have hne := mem_mapDel_ne_key hmk he
    have hid := hids e ((mapDel_sublist _ _).mem he)
    rw [← hev, hid]
    exact hne

/-- A stand-in digest function for concrete witnesses (the length in
decimal). -/
def md5len : List Nat → String := fun l => toString l.length

/-- A concrete state holding one multipart upload `u1` for `b`/`k` with
two uploaded parts, used by the multipart witnesses. -/
def mpState : S3State :=
  (S3MockStore.uploadPart md5len 2
    ((S3MockStore.uploadPart md5len 1
      ((S3MockStore.createMultipartUpload 0 "u1" initialState "b" "k" {}).2)
      "u1" 1 [1, 2]).2)
    "u1" 2 [3]).2

/-- The upload record stored in `mpState`. -/
def mpUpload : MultipartUpload :=
  { uploadId := "u1", bucket := "b", key := "k", initiated := 0,
    parts := [(1, { partNumber := 1, etag := "\"2\"", size := 2,
                    data := [1, 2], lastModified := 1 }),
              (2, { partNumber := 2, etag := "\"1\"", size := 1,
                    data := [3], lastModified := 2 })] }

/-- Witness for C6 at a concrete input: completing `u1` with both parts
referenced in order. -/
theorem completeMultipartUpload_success_witness :
    ∃ obj s2,
      S3MockStore.completeMultipartUpload md5len 9 mpState "u1"
          [⟨1, "\"2\""⟩, ⟨2, "\"1\""⟩] = (.ok obj, s2) ∧
      S3MockStore.putObject md5len 9 mpState mpUpload.bucket mpUpload.key
          (([⟨1, "\"2\""⟩, ⟨2, "\"1\""⟩] : List PartRef).map
            (fun pr => (mapGet mpUpload.parts pr.PartNumber).elim []
              (fun p => p.data))).flatten
          { metadata := mpUpload.metadata, contentType := mpUpload.contentType,
            storageClass := mpUpload.storageClass,
            serverSideEncryption := mpUpload.serverSideEncryption,
            sseKmsKeyId := mpUpload.sseKmsKeyId, acl := mpUpload.acl,
            tags := mpUpload.tags } =
        (.ok obj, S3State.mk s2.buckets s2.objects mpState.multipartUploads) ∧
      s2.multipartUploads = mapDel mpState.multipartUploads "u1" ∧
      obj.body = (([⟨1, "\"2\""⟩, ⟨2, "\"1\""⟩] : List PartRef).map
        (fun pr => (mapGet mpUpload.parts pr.PartNumber).elim []
          (fun p => p.data))).flatten ∧
      obj.metadata = mpUpload.metadata ∧
      obj.contentType = mpUpload.contentType ∧
      S3MockStore.getObject s2 mpUpload.bucket mpUpload.key = some obj ∧
      S3MockStore.getMultipartUpload s2 "u1" = none ∧
      ∀ u ∈ S3MockStore.listMultipartUploads s2 mpUpload.bucket none none,
        u.uploadId ≠ "u1" :=
  completeMultipartUpload_success md5len 9 mpState "u1"
    [⟨1, "\"2\""⟩, ⟨2, "\"1\""⟩] mpUpload (by decide) (by decide) (by decide)
    (by decide) (by decide)

/-- **C7.** `completeMultipartUpload` is atomic on failure: when a
referenced part number does not exist or its client-declared ETag does
not match the stored part's ETag, the call fails and leaves the store
state exactly as it was — in particular the upload record (with all its
parts) is still registered and the object map is untouched. -/
theorem completeMultipartUpload_failure_atomic (md5Hex : List Nat → String)
    (now : Nat) (s : S3State) (uploadId : String) (parts : List PartRef)
    (upload : MultipartUpload)
    (hup : mapGet s.multipartUploads uploadId = some upload)
    (hbad : ¬∀ pr ∈ parts, ∃ sp, mapGet upload.parts pr.PartNumber = some sp ∧
      sp.etag = pr.ETag) :
    ∃ e,
      S3MockStore.completeMultipartUpload md5Hex now s uploadId parts =
        (.error e, s) ∧
      mapGet (S3MockStore.completeMultipartUpload md5Hex now s uploadId
        parts).2.multipartUploads uploadId = some upload ∧
      S3MockStore.getObject
          (S3MockStore.completeMultipartUpload md5Hex now s uploadId parts).2
          upload.bucket upload.key =
        S3MockStore.getObject s upload.bucket upload.key := by
  obtain ⟨e, he⟩ := collectParts_error hbad
  have hc : S3MockStore.completeMultipartUpload md5Hex now s uploadId parts =
      (.error e, s) := by
    simp only [S3MockStore.completeMultipartUpload, hup, he]
  refine ⟨e, hc, ?_, ?_⟩
  · rw [hc]
    exact hup
  · rw [hc]

/-- Witness for C7 at a concrete input: completing `u1` with a wrong ETag
for part 1 fails and leaves the state unchanged. -/
theorem completeMultipartUpload_failure_atomic_witness :
    ∃ e,
      S3MockStore.completeMultipartUpload md5len 9 mpState "u1"
          [⟨1, "\"9\""⟩] = (.error e, mpState) ∧
      mapGet (S3MockStore.completeMultipartUpload md5len 9 mpState "u1"
        [⟨1, "\"9\""⟩]).2.multipartUploads "u1" = some mpUpload ∧
      S3MockStore.getObject
          (S3MockStore.completeMultipartUpload md5len 9 mpState "u1"
            [⟨1, "\"9\""⟩]).2 mpUpload.bucket mpUpload.key =
        S3MockStore.getObject mpState mpUpload.bucket mpUpload.key :=
  completeMultipartUpload_failure_atomic md5len 9 mpState "u1"
    [⟨1, "\"9\""⟩] mpUpload (by decide) (by decide)

/-! ### C8: copy semantics -/

/-- **C8.** For every copy whose source object exists, the operation is
exactly `putObject(dstBucket, dstKey, srcBody, {...srcMetadata,
...overrides})`: the destination object's body equals the source's and
each descriptive field (content-type, encoding, language, disposition,
cache-control, user metadata) equals the source's when no override for it
is supplied, while a supplied override takes precedence; and when the
source key is absent the CopyObject handler fails with the structured
`NoSuchKey` 404 error. -/
theorem copyObject_semantics (md5Hex : List Nat → String) (now : Nat)
    (s : S3State) (srcB srcK dstB dstK : String) :
    (∀ (src : StoredObject) (ov : S3MockStore.CopyOverrides),
      S3MockStore.getObject s srcB srcK = some src →
      ((mapGet s.buckets dstB).isSome ↔ (mapGet s.objects dstB).isSome) →
      S3MockStore.copyObject md5Hex now s srcB srcK dstB dstK ov =
        S3MockStore.putObject md5Hex now s dstB dstK src.body
          (S3MockStore.mergeCopyOptions src ov) ∧
      ∃ obj st,
        S3MockStore.copyObject md5Hex now s srcB srcK dstB dstK ov =
          (.ok obj, st) ∧
        S3MockStore.getObject st dstB dstK = some obj ∧
        obj.body = src.body ∧
        (ov.contentType = none → obj.contentType = src.contentType) ∧
        (∀ v, ov.contentType = some v → obj.contentType = v) ∧
        (ov.contentEncoding = none → obj.contentEncoding = src.contentEncoding) ∧
        (∀ v, ov.contentEncoding = some v → obj.contentEncoding = v) ∧
        (ov.contentLanguage = none → obj.contentLanguage = src.contentLanguage) ∧
        (∀ v, ov.contentLanguage = some v → obj.contentLanguage = v) ∧
        (ov.contentDisposition = none →
          obj.contentDisposition = src.contentDisposition) ∧
        (∀ v, ov.contentDisposition = some v → obj.contentDisposition = v) ∧
        (ov.cacheControl = none → obj.cacheControl = src.cacheControl) ∧
        (∀ v, ov.cacheControl = some v → obj.cacheControl = v) ∧
        (ov.metadata = none → obj.metadata = src.metadata) ∧
        (∀ v, ov.metadata = some v → obj.metadata = v)) ∧
    (∀ (input : Handlers.CopyObjectInput) (sb sk : String),
      Handlers.strTruthy input.Bucket = true →
      Handlers.strTruthy input.Key = true →
      Handlers.strTruthy input.CopySource = true →
      Handlers.parseCopySource (input.CopySource.getD "") = some (sb, sk) →
      S3MockStore.bucketExists s sb = true →
      S3MockStore.objectExists s sb sk = false →
      Handlers.copyObjectHandler md5Hex now s input =
        (.error (createAwsError "NoSuchKey"
          ("The specified source key does not exist: " ++ sk) 404), s)) := by
  constructor
  · intro src ov hsrc hal
    have heq : S3MockStore.copyObject md5Hex now s srcB srcK dstB dstK ov =
        S3MockStore.putObject md5Hex now s dstB dstK src.body
          (S3MockStore.mergeCopyOptions src ov) := by
      simp [S3MockStore.copyObject, hsrc]
    refine ⟨heq, ?_⟩
    obtain ⟨bo, hbo, hput⟩ := S3MockStore.putObject_eq md5Hex now s dstB dstK
      src.body (S3MockStore.mergeCopyOptions src ov) hal
    have hg := S3MockStore.getObject_putObject md5Hex now s dstB dstK
      src.body (S3MockStore.mergeCopyOptions src ov) hal
    refine ⟨S3MockStore.mkStoredObject md5Hex now dstK src.body
      (S3MockStore.mergeCopyOptions src ov),
      (S3MockStore.putObject md5Hex now s dstB dstK src.body
        (S3MockStore.mergeCopyOptions src ov)).2,
      ?_, hg, rfl, ?_, ?_, ?_, ?_, ?_, ?_, ?_, ?_, ?_, ?_, ?_, ?_⟩
    · rw [heq, hput]
    · intro h
      simp [S3MockStore.mkStoredObject, S3MockStore.mergeCopyOptions,
        S3MockStore.jsSpread, h]
    · intro v h
      simp [S3MockStore.mkStoredObject, S3MockStore.mergeCopyOptions,
        S3MockStore.jsSpread, h]
    · intro h
      simp [S3MockStore.mkStoredObject, S3MockStore.mergeCopyOptions,
        S3MockStore.jsSpread, h]
    · intro v h
      simp [S3MockStore.mkStoredObject, S3MockStore.mergeCopyOptions,
        S3MockStore.jsSpread, h]
    · intro h
      simp [S3MockStore.mkStoredObject, S3MockStore.mergeCopyOptions,
        S3MockStore.jsSpread, h]
    · intro v h
      simp [S3MockStore.mkStoredObject, S3MockStore.mergeCopyOptions,
        S3MockStore.jsSpread, h]
    · intro h
      simp [S3MockStore.mkStoredObject, S3MockStore.mergeCopyOptions,
        S3MockStore.jsSpread, h]
    · intro v h
      simp [S3MockStore.mkStoredObject, S3MockStore.mergeCopyOptions,
        S3MockStore.jsSpread, h]
    · intro h
      simp [S3MockStore.mkStoredObject, S3MockStore.mergeCopyOptions,
        S3MockStore.jsSpread, h]
    · intro v h
      simp [S3MockStore.mkStoredObject, S3MockStore.mergeCopyOptions,
        S3MockStore.jsSpread, h]
    · intro h
      simp [S3MockStore.mkStoredObject, S3MockStore.mergeCopyOptions,
        S3MockStore.jsSpread, h]
    · intro v h
      simp [S3MockStore.mkStoredObject, S3MockStore.mergeCopyOptions,
        S3MockStore.jsSpread, h]
  · intro input sb sk hB hK hCS hparse hbex hnoobj
    simp [Handlers.copyObjectHandler, hB, hK, hCS, hparse, hbex, hnoobj]

/-- A concrete source state for the C8 witness: `b`/`k` stored with a
content type. -/
def copySrcState : S3State :=
  (S3MockStore.putObject md5len 5 initialState "b" "k" [1, 2]
    { contentType := some "text/plain" }).2

/-- The source object stored in `copySrcState`. -/
def copySrcObj : StoredObject :=
  S3MockStore.mkStoredObject md5len 5 "k" [1, 2]
    { contentType := some "text/plain" }

/-- Witness for C8 at a concrete input: a copy with a content-type
override, and a handler copy from an absent source key. -/
theorem copyObject_semantics_witness :
    (S3MockStore.copyObject md5len 9 copySrcState "b" "k" "b" "k2"
        { contentType := some (some "text/html") } =
      S3MockStore.putObject md5len 9 copySrcState "b" "k2" copySrcObj.body
        (S3MockStore.mergeCopyOptions copySrcObj
          { contentType := some (some "text/html") }) ∧
      ∃ obj st,
        S3MockStore.copyObject md5len 9 copySrcState "b" "k" "b" "k2"
            { contentType := some (some "text/html") } = (.ok obj, st) ∧
        S3MockStore.getObject st "b" "k2" = some obj ∧
        obj.body = copySrcObj.body ∧
        ((S3MockStore.CopyOverrides.contentType
            { contentType := some (some "text/html") }) = none →
          obj.contentType = copySrcObj.contentType) ∧
        (∀ v, (S3MockStore.CopyOverrides.contentType
            { contentType := some (some "text/html") }) = some v →
          obj.contentType = v) ∧
        ((S3MockStore.CopyOverrides.contentEncoding
            ({ contentType := some (some "text/html") } :
              S3MockStore.CopyOverrides)) = none →
          obj.contentEncoding = copySrcObj.contentEncoding) ∧
        (∀ v, (S3MockStore.CopyOverrides.contentEncoding
            ({ contentType := some (some "text/html") } :
              S3MockStore.CopyOverrides)) = some v →
          obj.contentEncoding = v) ∧
        ((S3MockStore.CopyOverrides.contentLanguage
            ({ contentType := some (some "text/html") } :
              S3MockStore.CopyOverrides)) = none →
          obj.contentLanguage = copySrcObj.contentLanguage) ∧
        (∀ v, (S3MockStore.CopyOverrides.contentLanguage
            ({ contentType := some (some "text/html") } :
              S3MockStore.CopyOverrides)) = some v →
          obj.contentLanguage = v) ∧
        ((S3MockStore.CopyOverrides.contentDisposition
            ({ contentType := some (some "text/html") } :
              S3MockStore.CopyOverrides)) = none →
          obj.contentDisposition = copySrcObj.contentDisposition) ∧
        (∀ v, (S3MockStore.CopyOverrides.contentDisposition
            ({ contentType := some (some "text/html") } :
              S3MockStore.CopyOverrides)) = some v →
          obj.contentDisposition = v) ∧
        ((S3MockStore.CopyOverrides.cacheControl
            ({ contentType := some (some "text/html") } :
              S3MockStore.CopyOverrides)) = none →
          obj.cacheControl = copySrcObj.cacheControl) ∧
        (∀ v, (S3MockStore.CopyOverrides.cacheControl
            ({ contentType := some (some "text/html") } :
              S3MockStore.CopyOverrides)) = some v →
          obj.cacheControl = v) ∧
        ((S3MockStore.CopyOverrides.metadata
            ({ contentType := some (some "text/html") } :
              S3MockStore.CopyOverrides)) = none →
          obj.metadata = copySrcObj.metadata) ∧
        (∀ v, (S3MockStore.CopyOverrides.metadata
            ({ contentType := some (some "text/html") } :
              S3MockStore.CopyOverrides)) = some v →
          obj.metadata = v)) ∧
    Handlers.copyObjectHandler md5len 9 copySrcState
        { Bucket := some "b", Key := some "dst",
          CopySource := some "/b/missing" } =
      (.error (createAwsError "NoSuchKey"
        ("The specified source key does not exist: " ++ "missing") 404),
       copySrcState) :=
  ⟨(copyObject_semantics md5len 9 copySrcState "b" "k" "b" "k2").1
      copySrcObj { contentType := some (some "text/html") }
      (by decide) (by decide),
   (copyObject_semantics md5len 9 copySrcState "b" "k" "b" "k2").2
      { Bucket := some "b", Key := some "dst",
        CopySource := some "/b/missing" } "b" "missing"
      (by decide) (by decide) (by decide) (by decide) (by decide) (by decide)⟩

/-! ### C9: a raw store error escapes the CompleteMultipartUpload handler -/

/-- **C9** (refuted: code bug). The claim says no Store-level generic
failure ever escapes a handler untranslated. But the
CompleteMultipartUpload handler calls `store.completeMultipartUpload`
without any translation, so on an ETag mismatch the store's plain
`Error("ETag mismatch for part 1")` — carrying no symbolic name, no
HTTP status code and no fault class — escapes to the caller: here the
handler's result is the unstructured `MockErr.raw` error, not a
`createAwsError` value. -/
theorem completeMultipartUploadHandler_raw_error_escape :
    (Handlers.completeMultipartUploadHandler md5len 9 mpState
      { Bucket := some "b", Key := some "k", UploadId := some "u1",
        Parts := some [⟨1, "\"9\""⟩] }).1 =
      .error (.raw "ETag mismatch for part 1") := by
  rfl


/-! ### C10: the buckets/objects domain invariant -/

/-- The invariant claimed for the store: the bucket-record map and the
per-bucket object map are keyed by exactly the same bucket names. -/
def bucketsObjectsAligned (s : S3State) : Prop :=
  ∀ n, (mapGet s.buckets n).isSome ↔ (mapGet s.objects n).isSome

/-- The strengthened inductive invariant: alignment plus duplicate-free
keys in both maps (JS `Map`s never hold duplicate keys). -/
def StoreInv (s : S3State) : Prop :=
  bucketsObjectsAligned s ∧ (mapKeys s.buckets).Nodup ∧
    (mapKeys s.objects).Nodup

theorem mapKeys_cons (e : κ × β) (es : List (κ × β)) :
    mapKeys (e :: es) = e.1 :: mapKeys es := rfl

theorem mapSet_cons_eq [DecidableEq κ] {e : κ × β} {k : κ} (he : e.1 = k)
    (es : List (κ × β)) (v : β) :
    mapSet (e :: es) k v = (k, v) :: es := by
  simp [mapSet, he]

theorem mapSet_cons_ne [DecidableEq κ] {e : κ × β} {k : κ} (he : ¬e.1 = k)
    (es : List (κ × β)) (v : β) :
    mapSet (e :: es) k v = e :: mapSet es k v := by
  simp [mapSet, he]

theorem mapKeys_mapSet_cases [DecidableEq κ] (m : List (κ × β)) (k : κ)
    (v : β) :
    mapKeys (mapSet m k v) = mapKeys m ∨
      (k ∉ mapKeys m ∧ mapKeys (mapSet m k v) = mapKeys m ++ [k]) := by
  induction m with
  | nil =>
    right
    exact ⟨List.not_mem_nil k, rfl⟩
  | cons e es ih =>
    by_cases he : e.1 = k
    · left
      rw [mapSet_cons_eq he, mapKeys_cons, mapKeys_cons, he]
    · rcases ih with heq | ⟨hnot, heq⟩
      · left
        rw [mapSet_cons_ne he, mapKeys_cons, mapKeys_cons, heq]
      · right
        constructor
        · intro hmem
          rcases List.mem_cons.mp hmem with h1 | h1
          · exact he h1.symm
          · exact hnot h1
        · rw [mapSet_cons_ne he, mapKeys_cons, mapKeys_cons,
            List.cons_append, heq]

theorem nodup_mapKeys_mapSet [DecidableEq κ] {m : List (κ × β)} (k : κ)
    (v : β) (h : (mapKeys m).Nodup) : (mapKeys (mapSet m k v)).Nodup := by
  rcases mapKeys_mapSet_cases m k v with heq | ⟨hnot, heq⟩
  · rw [heq]; exact h
  · rw [heq]
    refine List.Nodup.append h (List.nodup_singleton k) (fun a ha hb => ?_)
    rw [List.mem_singleton] at hb
    exact hnot (hb ▸ ha)

theorem nodup_mapKeys_mapDel [DecidableEq κ] {m : List (κ × β)} (k : κ)
    (h : (mapKeys m).Nodup) : (mapKeys (mapDel m k)).Nodup := by
  unfold mapKeys at h ⊢
  exact h.sublist ((mapDel_sublist m k).map _)

/-- The invariant ignores the `multipartUploads` component. -/
theorem StoreInv_multipart {s : S3State} (M : List (String × MultipartUpload))
    (h : StoreInv s) : StoreInv (S3State.mk s.buckets s.objects M) := h

/-- Setting the same bucket name in both maps preserves the invariant. -/
theorem inv_setBoth {s : S3State} (h : StoreInv s) (name : String)
    (b : StoredBucket) (o : List (String × StoredObject)) :
    StoreInv { s with buckets := mapSet s.buckets name b,
                      objects := mapSet s.objects name o } := by
  obtain ⟨hal, hnb, hno⟩ := h
  refine ⟨?_, nodup_mapKeys_mapSet _ _ hnb, nodup_mapKeys_mapSet _ _ hno⟩
  intro n
  show (mapGet (mapSet s.buckets name b) n).isSome ↔
    (mapGet (mapSet s.objects name o) n).isSome
  rw [mapGet_mapSet, mapGet_mapSet]
  by_cases hn : n = name
  · simp [hn]
  · simp only [if_neg hn]
    exact hal n

/-- Replacing the object map of a bucket that already has one preserves
the invariant. -/
theorem inv_setObjectsExisting {s : S3State} {bucket : String}
    {bo : List (String × StoredObject)}
    (h : StoreInv s) (hbo : mapGet s.objects bucket = some bo)
    (X : List (String × StoredObject)) :
    StoreInv { s with objects := mapSet s.objects bucket X } := by
  obtain ⟨hal, hnb, hno⟩ := h
  refine ⟨?_, hnb, nodup_mapKeys_mapSet _ _ hno⟩
  intro n
  show (mapGet s.buckets n).isSome ↔
    (mapGet (mapSet s.objects bucket X) n).isSome
  rw [mapGet_mapSet]
  by_cases hn : n = bucket
  · rw [if_pos hn]
    simp only [Option.isSome_some, iff_true]
    exact (hal n).mpr (by rw [hn, hbo]; rfl)
  · simp only [if_neg hn]
    exact hal n

/-- Replacing the record of an existing bucket preserves the invariant. -/
theorem inv_setBucketsExisting {s : S3State} {bucket : String}
    {b : StoredBucket}
    (h : StoreInv s) (hb : mapGet s.buckets bucket = some b)
    (X : StoredBucket) :
    StoreInv { s with buckets := mapSet s.buckets bucket X } := by
  obtain ⟨hal, hnb, hno⟩ := h
  refine ⟨?_, nodup_mapKeys_mapSet _ _ hnb, hno⟩
  intro n
  show (mapGet (mapSet s.buckets bucket X) n).isSome ↔
    (mapGet s.objects n).isSome
  rw [mapGet_mapSet]
  by_cases hn : n = bucket
  · rw [if_pos hn]
    simp only [Option.isSome_some, true_iff]
    exact (hal n).mp (by rw [hn, hb]; rfl)
  · simp only [if_neg hn]
    exact hal n

theorem inv_createBucket {s : S3State} (h : StoreInv s) (now : Nat)
    (name : String) (region acl : Option String) :
    StoreInv (S3MockStore.createBucket now s name region acl).2 := by
  by_cases hhas : mapHas s.buckets name = true
  · rw [S3MockStore.createBucket_has hhas]
    exact h
  · have hf : mapHas s.buckets name = false := by simpa using hhas
    rw [S3MockStore.createBucket_not_has hf]
    exact inv_setBoth h name _ _

theorem inv_ensureBucket {s : S3State} (h : StoreInv s) (now : Nat)
    (name : String) :
    StoreInv (S3MockStore.ensureBucket now s name).2 := by
  by_cases hhas : mapHas s.buckets name = true
  · rw [S3MockStore.ensureBucket_has hhas]
    exact h
  · have hf : mapHas s.buckets name = false := by simpa using hhas
    rw [S3MockStore.ensureBucket_not_has hf]
    exact inv_setBoth h name _ _

theorem inv_putObject {s : S3State} (h : StoreInv s)
    (md5Hex : List Nat → String) (now : Nat) (bucket key : String)
    (body : List Nat) (opts : ObjectOptions) :
    StoreInv (S3MockStore.putObject md5Hex now s bucket key body opts).2 := by
  have h1 := inv_ensureBucket h now bucket
  unfold S3MockStore.putObject
  dsimp only
  split
  next heq => exact h1
  next bo heq => exact inv_setObjectsExisting h1 heq _

theorem inv_deleteBucket {s : S3State} (h : StoreInv s) (name : String) :
    StoreInv (S3MockStore.deleteBucket s name).2 := by
  obtain ⟨hal, hnb, hno⟩ := h
  unfold S3MockStore.deleteBucket
  dsimp only
  split
  next hne => exact ⟨hal, hnb, hno⟩
  next hne =>
    refine ⟨?_, nodup_mapKeys_mapDel _ hnb, nodup_mapKeys_mapDel _ hno⟩
    intro n
    show (mapGet (mapDel s.buckets name) n).isSome ↔
      (mapGet (mapDel s.objects name) n).isSome
    rw [mapGet_mapDel_of_nodup _ _ _ hnb, mapGet_mapDel_of_nodup _ _ _ hno]
    by_cases hn : n = name
    · simp [hn]
    · simp only [if_neg hn]
      exact hal n

theorem inv_deleteObject {s : S3State} (h : StoreInv s) (bucket key : String) :
    StoreInv (S3MockStore.deleteObject s bucket key).2 := by
  unfold S3MockStore.deleteObject
  split
  next heq => exact h
  next bo heq => exact inv_setObjectsExisting h heq _

theorem inv_copyObject {s : S3State} (h : StoreInv s)
    (md5Hex : List Nat → String) (now : Nat) (sb sk db dk : String)
    (ov : S3MockStore.CopyOverrides) :
    StoreInv (S3MockStore.copyObject md5Hex now s sb sk db dk ov).2 := by
  unfold S3MockStore.copyObject
  split
  next heq => exact h
  next src heq => exact inv_putObject h md5Hex now db dk src.body _

theorem inv_createMultipartUpload {s : S3State} (h : StoreInv s) (now : Nat)
    (uploadId bucket key : String) (opts : S3MockStore.MultipartOptions) :
    StoreInv (S3MockStore.createMultipartUpload now uploadId s bucket key
      opts).2 := by
  have h1 := inv_ensureBucket h now bucket
  unfold S3MockStore.createMultipartUpload
  dsimp only
  exact StoreInv_multipart _ h1

theorem inv_uploadPart {s : S3State} (h : StoreInv s)
    (md5Hex : List Nat → String) (now : Nat) (uploadId : String)
    (partNumber : Nat) (data : List Nat) :
    StoreInv (S3MockStore.uploadPart md5Hex now s uploadId partNumber
      data).2 := by
  unfold S3MockStore.uploadPart
  dsimp only
  split
  next heq => exact h
  next upload heq => exact StoreInv_multipart _ h

theorem inv_completeMultipartUpload {s : S3State} (h : StoreInv s)
    (md5Hex : List Nat → String) (now : Nat) (uploadId : String)
    (parts : List PartRef) :
    StoreInv (S3MockStore.completeMultipartUpload md5Hex now s uploadId
      parts).2 := by
  unfold S3MockStore.completeMultipartUpload
  dsimp only
  split
  next heq => exact h
  next upload heq =>
    split
    next e hcol => exact h
    next L hcol =>
      have hput := inv_putObject h md5Hex now upload.bucket upload.key
        ((L.map (fun p => p.data)).flatten)
        { metadata := upload.metadata, contentType := upload.contentType,
          storageClass := upload.storageClass,
          serverSideEncryption := upload.serverSideEncryption,
          sseKmsKeyId := upload.sseKmsKeyId, acl := upload.acl,
          tags := upload.tags }
      split
      next e s1 hp =>
        rw [hp] at hput
        exact hput
      next obj s1 hp =>
        rw [hp] at hput
        exact StoreInv_multipart _ hput

theorem inv_abortMultipartUpload {s : S3State} (h : StoreInv s)
    (uploadId : String) :
    StoreInv (S3MockStore.abortMultipartUpload s uploadId).2 :=
  StoreInv_multipart _ h

theorem inv_updateBucketConfiguration {s : S3State} (h : StoreInv s)
    (bucket : String) (patch : BucketConfiguration → BucketConfiguration) :
    StoreInv (S3MockStore.updateBucketConfiguration s bucket patch).2 := by
  unfold S3MockStore.updateBucketConfiguration
  dsimp only
  split
  next heq => exact h
  next b heq => exact inv_setBucketsExisting h heq _

theorem inv_setObjectTags {s : S3State} (h : StoreInv s)
    (bucket key : String) (tags : List KV) :
    StoreInv (S3MockStore.setObjectTags s bucket key tags).2 := by
  unfold S3MockStore.setObjectTags
  dsimp only
  split
  next heq => exact h
  next bo heq =>
    split
    next heq2 => exact h
    next object heq2 => exact inv_setObjectsExisting h heq _

theorem inv_deleteObjectTags {s : S3State} (h : StoreInv s)
    (bucket key : String) :
    StoreInv (S3MockStore.deleteObjectTags s bucket key).2 := by
  unfold S3MockStore.deleteObjectTags
  dsimp only
  split
  next heq => exact h
  next bo heq =>
    split
    next heq2 => exact h
    next object heq2 => exact inv_setObjectsExisting h heq _

/-- One public mutating operation of the store, from any state with any
arguments. -/
inductive Step : S3State → S3State → Prop
  | createBucket (now : Nat) (name : String) (region acl : Option String)
      (s : S3State) : Step s (S3MockStore.createBucket now s name region acl).2
  | ensureBucket (now : Nat) (name : String) (s : S3State) :
      Step s (S3MockStore.ensureBucket now s name).2
  | deleteBucket (name : String) (s : S3State) :
      Step s (S3MockStore.deleteBucket s name).2
  | putObject (md5Hex : List Nat → String) (now : Nat) (bucket key : String)
      (body : List Nat) (opts : ObjectOptions) (s : S3State) :
      Step s (S3MockStore.putObject md5Hex now s bucket key body opts).2
  | deleteObject (bucket key : String) (s : S3State) :
      Step s (S3MockStore.deleteObject s bucket key).2
  | copyObject (md5Hex : List Nat → String) (now : Nat) (sb sk db dk : String)
      (ov : S3MockStore.CopyOverrides) (s : S3State) :
      Step s (S3MockStore.copyObject md5Hex now s sb sk db dk ov).2
  | createMultipartUpload (now : Nat) (uploadId bucket key : String)
      (opts : S3MockStore.MultipartOptions) (s : S3State) :
      Step s (S3MockStore.createMultipartUpload now uploadId s bucket key
        opts).2
  | uploadPart (md5Hex : List Nat → String) (now : Nat) (uploadId : String)
      (partNumber : Nat) (data : List Nat) (s : S3State) :
      Step s (S3MockStore.uploadPart md5Hex now s uploadId partNumber data).2
  | completeMultipartUpload (md5Hex : List Nat → String) (now : Nat)
      (uploadId : String) (parts : List PartRef) (s : S3State) :
      Step s (S3MockStore.completeMultipartUpload md5Hex now s uploadId
        parts).2
  | abortMultipartUpload (uploadId : String) (s : S3State) :
      Step s (S3MockStore.abortMultipartUpload s uploadId).2
  | updateBucketConfiguration (bucket : String)
      (patch : BucketConfiguration → BucketConfiguration) (s : S3State) :
      Step s (S3MockStore.updateBucketConfiguration s bucket patch).2
  | setObjectTags (bucket key : String) (tags : List KV) (s : S3State) :
      Step s (S3MockStore.setObjectTags s bucket key tags).2
  | deleteObjectTags (bucket key : String) (s : S3State) :
      Step s (S3MockStore.deleteObjectTags s bucket key).2
  | reset (s : S3State) : Step s (S3MockStore.reset s)

/-- States reachable from the freshly constructed store by public
operations. -/
inductive Reachable : S3State → Prop
  | init : Reachable initialState
  | step {s t : S3State} : Reachable s → Step s t → Reachable t

theorem step_preserves_inv {s t : S3State} (h : StoreInv s)
    (hst : Step s t) : StoreInv t := by
  cases hst with
  | createBucket now name region acl s =>
    exact inv_createBucket h now name region acl
  | ensureBucket now name s => exact inv_ensureBucket h now name
  | deleteBucket name s => exact inv_deleteBucket h name
  | putObject md5Hex now bucket key body opts s =>
    exact inv_putObject h md5Hex now bucket key body opts
  | deleteObject bucket key s => exact inv_deleteObject h bucket key
  | copyObject md5Hex now sb sk db dk ov s =>
    exact inv_copyObject h md5Hex now sb sk db dk ov
  | createMultipartUpload now uploadId bucket key opts s =>
    exact inv_createMultipartUpload h now uploadId bucket key opts
  | uploadPart md5Hex now uploadId partNumber data s =>
    exact inv_uploadPart h md5Hex now uploadId partNumber data
  | completeMultipartUpload md5Hex now uploadId parts s =>
    exact inv_completeMultipartUpload h md5Hex now uploadId parts
  | abortMultipartUpload uploadId s => exact inv_abortMultipartUpload h uploadId
  | updateBucketConfiguration bucket patch s =>
    exact inv_updateBucketConfiguration h bucket patch
  | setObjectTags bucket key tags s => exact inv_setObjectTags h bucket key tags
  | deleteObjectTags bucket key s => exact inv_deleteObjectTags h bucket key
  | reset s => exact ⟨fun n => Iff.rfl, List.nodup_nil, List.nodup_nil⟩

theorem reachable_inv {s : S3State} (h : Reachable s) : StoreInv s := by
  induction h with
  | init => exact ⟨fun n => Iff.rfl, List.nodup_nil, List.nodup_nil⟩
  | step _ hst ih => exact step_preserves_inv ih hst

/-- **C10.** In every state of the store reachable from the initial
empty state by any sequence of its public operations, the bucket-record
map and the per-bucket object map are defined on exactly the same bucket
names: no bucket ever has an objects entry without a bucket record or
vice versa. -/
theorem reachable_buckets_objects_aligned (s : S3State) (h : Reachable s) :
    ∀ n, (mapGet s.buckets n).isSome ↔ (mapGet s.objects n).isSome :=
  (reachable_inv h).1

/-- Witness for C10 at a concrete reachable state (the initial state
after one `createBucket`), checked at bucket name `b`. -/
theorem reachable_buckets_objects_aligned_witness :
    Reachable (S3MockStore.createBucket 0 initialState "b" none none).2 ∧
    ((mapGet (S3MockStore.createBucket 0 initialState "b" none none).2.buckets
        "b").isSome ↔
      (mapGet (S3MockStore.createBucket 0 initialState "b" none none).2.objects
        "b").isSome) :=
  ⟨.step .init (.createBucket 0 "b" none none initialState),
   reachable_buckets_objects_aligned _
     (.step .init (.createBucket 0 "b" none none initialState)) "b"⟩

end MockAws
